import Mathlib

/-! # review: narrowing a linter report to the lines of a diff

A shallow embedding of `main.go` (the orchestrator `run`) together with the
collaborators it calls.  The collaborators whose code is not in `main.go`
(`readDiff`, `readDiffFile`, `readPMDFile`, `newTextReporter`, `command.run`)
are parameters of `run`, bundled in `Env`.  The two streams `wout` and `werr`
are modelled by the sequence of writes made on them, and every collaborator
call is logged, so that a run yields an exit code and a trace.
-/

namespace Review

deriving instance DecidableEq for Except

/-! ## The usage text (`const usage`, main.go lines 10-34) -/

/-- The constant `usage` of main.go. -/
def usage : String :=
  "review - Narrows linter reports to what has actually changed.\n" ++
  "\n" ++
  "Usage:\n" ++
  "    review [OPTIONS...] report_file\n" ++
  "\n" ++
  "The report file must be in json format as generated by PMD.\n" ++
  "\n" ++
  "Examples:\n" ++
  "  Read diff from stdin and output the rules violations in the terminal\n" ++
  "    git diff feature..main | review pmd-report.json\n" ++
  "\n" ++
  "  Read diff from a file\n" ++
  "    review -d path/to/changes.diff pmd-report.json\n" ++
  "\n" ++
  "Return values:\n" ++
  "  0 - no violation found\n" ++
  "  1 - one or more violation found\n" ++
  "  2 - error during command execution\n" ++
  "\n" ++
  "Options:\n" ++
  "  -d, --diff file\n" ++
  "                Diff file location. Use '-' to read from\n" ++
  "                stdin (defaults to stdin)\n" ++
  "  -h, --help    Display this message\n"

/-! ## Command-line parsing

`run` registers four flags on a `flag.FlagSet` with `ContinueOnError`:
the string flags `d` and `diff` (both bound to `diffFlag`) and the boolean
flags `h` and `help` (both bound to `helpFlag`), then calls
`flags.Parse(os.Args[1:])`.  `parseOne` and `parseLoop` follow
`(*FlagSet).parseOne` and `(*FlagSet).Parse` of the Go standard library,
specialised to these four flags.  Since `h` and `help` are defined, the
library's `ErrHelp` case for undefined help flags is never taken.  On an
error the library prints its text on the flag set's output (`os.Stderr`, as
`run` sets none) and calls `flags.Usage`, which `run` has set to do nothing. -/

/-- The variables bound to the flag set, and the arguments still to parse
(`f.args`); after parsing, `args` holds the positional arguments. -/
structure FlagSet where
  diffFlag : String
  helpFlag : Bool
  args : List String
  deriving DecidableEq, Repr

/-- The errors `parseOne` builds with `failf`. -/
inductive FlagError where
  /-- `bad flag syntax: %s` -/
  | badSyntax (s : String)
  /-- `flag provided but not defined: -%s` -/
  | notDefined (name : String)
  /-- `invalid boolean value %q for -%s: %v`, where the cause is `parse error` -/
  | invalidBool (value name : String)
  /-- `flag needs an argument: -%s` -/
  | needsArgument (name : String)
  deriving DecidableEq, Repr

/-- The text of a flag error (its `Error()`); `quote` renders the `%q` verb. -/
def FlagError.Error (quote : String → String) : FlagError → String
  | .badSyntax s => "bad flag syntax: " ++ s
  | .notDefined name => "flag provided but not defined: -" ++ name
  | .invalidBool value name =>
      "invalid boolean value " ++ quote value ++ " for -" ++ name ++ ": parse error"
  | .needsArgument name => "flag needs an argument: -" ++ name

/-- The values `strconv.ParseBool` accepts. -/
def parseBool (s : String) : Option Bool :=
  if s ∈ ["1", "t", "T", "TRUE", "true", "True"] then some true
  else if s ∈ ["0", "f", "F", "FALSE", "false", "False"] then some false
  else none

/-- Splits at the first `=`; `none` when there is none. -/
def splitAtEq : List Char → Option (List Char × List Char)
  | [] => none
  | c :: cs =>
    if c = '=' then some ([], cs)
    else match splitAtEq cs with
      | some (a, b) => some (c :: a, b)
      | none => none

/-- The name and the optional value of a flag: the loop
`for i := 1; i < len(name); i++` of `parseOne`, which looks for `=` from the
second character on. -/
def splitName : List Char → String × Option String
  | [] => ("", none)
  | c :: cs =>
    match splitAtEq cs with
    | some (a, b) => (String.mk (c :: a), some (String.mk b))
    | none => (String.mk (c :: cs), none)

/-- The three outcomes of `parseOne`: `(true, nil)`, `(false, nil)` and
`(false, err)`. -/
inductive ParseOne where
  | seen (f : FlagSet)
  | stop (f : FlagSet)
  | fail (e : FlagError)
  deriving DecidableEq, Repr

/-- Sets the flag `name`, once `s` has been taken off `f.args` (`rest`). -/
def setFlag (f : FlagSet) (rest : List String) (name : String) (value : Option String) :
    ParseOne :=
  if name = "h" ∨ name = "help" then
    -- boolean flag: needs no argument
    match value with
    | some v =>
      match parseBool v with
      | some b => .seen { f with helpFlag := b, args := rest }
      | none => .fail (.invalidBool v name)
    | none => .seen { f with helpFlag := true, args := rest }
  else if name = "d" ∨ name = "diff" then
    -- it must have a value, which might be the next argument
    match value with
    | some v => .seen { f with diffFlag := v, args := rest }
    | none =>
      match rest with
      | v :: rest' => .seen { f with diffFlag := v, args := rest' }
      | [] => .fail (.needsArgument name)
  else .fail (.notDefined name)

/-- The flag name after the leading minus signs: `s[numMinuses:]`, where `c1`
is the second character of `s` and `cs` what follows it. -/
def flagName (c1 : Char) (cs : List Char) : List Char :=
  if c1 = '-' then cs else c1 :: cs

/-- One step of flag parsing: `(*FlagSet).parseOne`. -/
def parseOne (f : FlagSet) : ParseOne :=
  match f.args with
  | [] => .stop f
  | s :: rest =>
    match s.data with
    | c0 :: c1 :: cs =>
      if c0 ≠ '-' then .stop f
      else if c1 = '-' ∧ cs = [] then .stop { f with args := rest }  -- "--" terminates the flags
      else
        match flagName c1 cs with
        | [] => .fail (.badSyntax s)
        | n0 :: ns =>
          if n0 = '-' ∨ n0 = '=' then .fail (.badSyntax s)
          else setFlag f rest (splitName (n0 :: ns)).1 (splitName (n0 :: ns)).2
    | _ => .stop f  -- len(s) < 2 || s[0] != '-'

/-- Setting a flag leaves at most the arguments that followed it. -/
theorem setFlag_seen_le {f f' : FlagSet} {rest : List String} {name : String}
    {value : Option String} (h : setFlag f rest name value = .seen f') :
    f'.args.length ≤ rest.length := by
  unfold setFlag at h
  split_ifs at h
  · split at h
    · split at h
      · cases h; simp
      · exact absurd h (by simp)
    · cases h; simp
  · split at h
    · cases h; simp
    · split at h
      · cases h; simp
      · exact absurd h (by simp)

/-- A step that has seen a flag has consumed at least one argument. -/
theorem parseOne_seen_lt {f f' : FlagSet} (h : parseOne f = .seen f') :
    f'.args.length < f.args.length := by
  unfold parseOne at h
  split at h
  · exact absurd h (by simp)
  · rename_i s rest hargs
    rw [hargs]
    split at h
    · split_ifs at h
      split at h
      · exact absurd h (by simp)
      · split_ifs at h
        have := setFlag_seen_le h
        simp only [List.length_cons]
        omega
    · exact absurd h (by simp)

/-- The loop of `(*FlagSet).Parse` under `ContinueOnError`: call `parseOne`
until it has not seen a flag.  The counter `n` bounds the number of rounds and
is always larger than the number of arguments left. -/
def parseLoop : (n : Nat) → (f : FlagSet) → f.args.length < n → Except FlagError FlagSet
  | 0, _, h => absurd h (Nat.not_lt_zero _)
  | n + 1, f, h =>
    match hp : parseOne f with
    | .seen f' => parseLoop n f' (Nat.lt_of_lt_of_le (parseOne_seen_lt hp) (Nat.le_of_lt_succ h))
    | .stop f' => .ok f'
    | .fail e => .error e

/-- The call `flags.Parse(os.Args[1:])` of `run`, on fresh flag variables
(`diffFlag = ""`, `helpFlag = false`). -/
def Parse (arguments : List String) : Except FlagError FlagSet :=
  parseLoop (arguments.length + 1) ⟨"", false, arguments⟩ (Nat.lt_succ_self _)

/-! ## The orchestrator `run` (main.go lines 40-109) -/

/-- The collaborators of `run` whose code is outside main.go.  `R` is the
reader passed as `r`, `C` the `contentChecker` and `L` the linter report.
An `error` is modelled by its text.  `cmdRun` gives, besides the result of
`cmd.run()`, what the reporter wrote on `wout` meanwhile. -/
structure Env (R C L : Type) where
  /-- `strconv.Quote`, the rendering of the `%q` verb in flag errors -/
  quote : String → String
  /-- `readDiff(r)` -/
  readDiff : R → Except String C
  /-- `readDiffFile(diffFlag)` -/
  readDiffFile : String → Except String C
  /-- `readPMDFile(reportFile)` -/
  readPMDFile : String → Except String L
  /-- `cmd.run()` with `cmd.content` and `cmd.linter` -/
  cmdRun : C → L → List String × Except String Int

/-- What a run does, in order: its own writes on the two streams, and the
calls of its collaborators together with the error each returned, if any. -/
inductive Event where
  /-- the flag package prints the text of a parse error on its own output,
  `os.Stderr` (`failf`), before `Parse` returns the error -/
  | flagOutput (s : String)
  /-- `run` writes on `wout` -/
  | wout (s : String)
  /-- `run` writes on `werr` -/
  | werr (s : String)
  /-- the call `readDiff(r)`: the diff is read from the reader `r` -/
  | readDiff (err : Option String)
  /-- the call `readDiffFile(path)` -/
  | readDiffFile (path : String) (err : Option String)
  /-- the call `newTextReporter(wout)` -/
  | newTextReporter
  /-- the call `readPMDFile(path)` -/
  | readPMDFile (path : String) (err : Option String)
  /-- the call `cmd.run()` -/
  | cmdRun (err : Option String)
  /-- the reporter writes on `wout` during `cmd.run()` -/
  | reported (s : String)
  deriving DecidableEq, Repr

/-- The value `run` returns and the trace of what it did. -/
structure Result where
  code : Int
  trace : List Event
  deriving DecidableEq, Repr

/-- The method `(*FlagSet).Arg`: the `i`-th remaining argument, `""` when there
is none. -/
def FlagSet.Arg (f : FlagSet) (i : Nat) : String :=
  f.args.getD i ""

/-- The error of a result, if any. -/
def errOf {α : Type} : Except String α → Option String
  | .error e => some e
  | .ok _ => none

/-- The verb `%d` on an `int`. -/
def fmtD : Int → String
  | .ofNat n => Nat.repr n
  | .negSucc n => "-" ++ Nat.repr (n + 1)

/-- The `switch diffFlag` of `run` (lines 73-78): the diff is read from `r`
when the option is `""` or `"-"`, from the file of that name otherwise. -/
def readContent {R C L : Type} (env : Env R C L) (diffFlag : String) (r : R) :
    Event × Except String C :=
  if diffFlag = "" ∨ diffFlag = "-" then
    (.readDiff (errOf (env.readDiff r)), env.readDiff r)
  else
    (.readDiffFile diffFlag (errOf (env.readDiffFile diffFlag)), env.readDiffFile diffFlag)

/-- The function `run` of main.go, after `flags.Parse` (lines 54-108), on the
outcome `parsed` of the parse. -/
def runParsed {R C L : Type} (env : Env R C L) (parsed : Except FlagError FlagSet) (r : R) :
    Result :=
  match parsed with
  | .error err =>
    ⟨2, [.flagOutput (err.Error env.quote ++ "\n"),
         .werr (usage ++ "\n"), .werr ("error: " ++ err.Error env.quote ++ "\n")]⟩
  | .ok flags =>
    if flags.helpFlag then
      ⟨0, [.wout (usage ++ "\n")]⟩
    else if flags.args.length ≠ 1 then
      ⟨2, [.werr (usage ++ "\n"), .werr "error: no report file provided\n"]⟩
    else
      let reportFile := flags.Arg 0
      match readContent env flags.diffFlag r with
      | (rd, .error err) =>
        ⟨2, [rd, .werr ("error: could not read diff: " ++ err ++ "\n")]⟩
      | (rd, .ok content) =>
        match env.readPMDFile reportFile with
        | .error err =>
          ⟨2, [rd, .newTextReporter, .readPMDFile reportFile (some err),
               .werr ("error: could not read report: " ++ err ++ "\n")]⟩
        | .ok linter =>
          match env.cmdRun content linter with
          | (out, .error err) =>
            ⟨2, [rd, .newTextReporter, .readPMDFile reportFile none, .cmdRun (some err)]
                 ++ out.map .reported
                 ++ [.werr ("error: command failed: " ++ err ++ "\n")]⟩
          | (out, .ok violationCount) =>
            if violationCount > 0 then
              ⟨1, [rd, .newTextReporter, .readPMDFile reportFile none, .cmdRun none]
                   ++ out.map .reported
                   ++ [.werr (fmtD violationCount ++ " violations found.\n")]⟩
            else
              ⟨0, [rd, .newTextReporter, .readPMDFile reportFile none, .cmdRun none]
                   ++ out.map .reported⟩

/-- The function `run` of main.go; `osArgs` is `os.Args[1:]` and `r` the
reader.  The writers `wout` and `werr` are the `wout`, `werr` and `reported`
events of the trace. -/
def run {R C L : Type} (env : Env R C L) (osArgs : List String) (r : R) : Result :=
  runParsed env (Parse osArgs) r

/-- The paths of `run`: every run takes exactly one of the seven ways through
the function, each with its result. -/
inductive Path {R C L : Type} (env : Env R C L) (osArgs : List String) (r : R) : Prop where
  | parseError (e : FlagError) (hparse : Parse osArgs = .error e)
  | help (flags : FlagSet) (hparse : Parse osArgs = .ok flags) (hhelp : flags.helpFlag = true)
  | argCount (flags : FlagSet) (hparse : Parse osArgs = .ok flags)
      (hhelp : flags.helpFlag = false) (hcount : flags.args.length ≠ 1)
  | diffError (flags : FlagSet) (e : String) (hparse : Parse osArgs = .ok flags)
      (hhelp : flags.helpFlag = false) (hone : flags.args.length = 1)
      (hdiff : (readContent env flags.diffFlag r).2 = .error e)
  | reportError (flags : FlagSet) (content : C) (e : String)
      (hparse : Parse osArgs = .ok flags)
      (hhelp : flags.helpFlag = false) (hone : flags.args.length = 1)
      (hdiff : (readContent env flags.diffFlag r).2 = .ok content)
      (hreport : env.readPMDFile (flags.Arg 0) = .error e)
  | commandError (flags : FlagSet) (content : C) (linter : L) (out : List String) (e : String)
      (hparse : Parse osArgs = .ok flags)
      (hhelp : flags.helpFlag = false) (hone : flags.args.length = 1)
      (hdiff : (readContent env flags.diffFlag r).2 = .ok content)
      (hreport : env.readPMDFile (flags.Arg 0) = .ok linter)
      (hcmd : env.cmdRun content linter = (out, .error e))
  | success (flags : FlagSet) (content : C) (linter : L) (out : List String) (n : Int)
      (hparse : Parse osArgs = .ok flags)
      (hhelp : flags.helpFlag = false) (hone : flags.args.length = 1)
      (hdiff : (readContent env flags.diffFlag r).2 = .ok content)
      (hreport : env.readPMDFile (flags.Arg 0) = .ok linter)
      (hcmd : env.cmdRun content linter = (out, .ok n))

/-! ### Reading a trace -/

/-- The writes `run` itself made on `werr`. -/
def werrWrites : List Event → List String
  | [] => []
  | .werr s :: t => s :: werrWrites t
  | _ :: t => werrWrites t

/-- The writes `run` itself made on `wout`. -/
def woutWrites : List Event → List String
  | [] => []
  | .wout s :: t => s :: woutWrites t
  | _ :: t => woutWrites t

/-- Everything written on `wout`, by `run` or by the reporter. -/
def stdoutWrites : List Event → List String
  | [] => []
  | .wout s :: t => s :: stdoutWrites t
  | .reported s :: t => s :: stdoutWrites t
  | _ :: t => stdoutWrites t

/-- `s` begins with `p`. -/
def beginsWith (p s : String) : Prop := p.data <+: s.data

instance (p s : String) : Decidable (beginsWith p s) := by
  unfold beginsWith; infer_instance

/-- Splits a text at every occurrence of `sep`. -/
def splitOnChar (sep : Char) : List Char → List (List Char)
  | [] => [[]]
  | c :: cs =>
    match splitOnChar sep cs with
    | [] => [[]]
    | w :: ws => if c = sep then [] :: w :: ws else (c :: w) :: ws

/-- The text of a stream: its writes one after the other. -/
def streamText : List String → List Char
  | [] => []
  | s :: t => s.data ++ streamText t

/-- The number of lines of a text that begin with `error: `. -/
def errorLines (text : List Char) : Nat :=
  (splitOnChar '\n' text).countP (fun l => decide ("error: ".data <+: l))

/-- An error text none of whose lines after the first begins with `error: `. -/
def cleanText (e : String) : Prop :=
  ∀ l ∈ (splitOnChar '\n' e.data).tail, ¬ "error: ".data <+: l

instance (e : String) : Decidable (cleanText e) := by
  unfold cleanText; infer_instance

/-- The diff source in the words of the usage text: `-d file` names the diff
file, and `-` or no option at all means the reader (stdin). -/
def diffSource {R C L : Type} (env : Env R C L) (diffFlag : String) (r : R) :
    Except String C :=
  if diffFlag = "" ∨ diffFlag = "-" then env.readDiff r else env.readDiffFile diffFlag

/-- The errors a run can meet have clean texts: the parse error, the error of
reading the diff from the reader or from the file the diff option names, the
error of reading the report file, and the error of the command. -/
def CleanErrors {R C L : Type} (env : Env R C L) (osArgs : List String) (r : R) : Prop :=
  (∀ e, Parse osArgs = .error e → cleanText (e.Error env.quote)) ∧
  (∀ flags e, Parse osArgs = .ok flags → diffSource env flags.diffFlag r = .error e →
      cleanText e) ∧
  (∀ flags e, Parse osArgs = .ok flags → env.readPMDFile (flags.Arg 0) = .error e →
      cleanText e) ∧
  (∀ content linter out e, env.cmdRun content linter = (out, .error e) → cleanText e)

/-- The run uses the result `src` as its diff: when `src` is an error the run
stops with that error, and when it is a content the command runs on that
content, once the report is read. -/
def UsesDiff {R C L : Type} (env : Env R C L) (osArgs : List String) (r : R)
    (flags : FlagSet) (src : Except String C) : Prop :=
  (∀ e, src = .error e →
    (run env osArgs r).code = 2 ∧
    werrWrites (run env osArgs r).trace = ["error: could not read diff: " ++ e ++ "\n"]) ∧
  (∀ content linter out res, src = .ok content →
    env.readPMDFile (flags.Arg 0) = .ok linter →
    env.cmdRun content linter = (out, res) →
    stdoutWrites (run env osArgs r).trace = out ∧
    Event.cmdRun (errOf res) ∈ (run env osArgs r).trace ∧
    (run env osArgs r).code =
      match res with
      | .error _ => 2
      | .ok n => if n > 0 then 1 else 0)

/-- The number a text of decimal digits denotes. -/
def decimalValue (cs : List Char) : Nat :=
  cs.foldl (fun a c => 10 * a + (c.toNat - 48)) 0

/-- The decimal rendering of a positive number, in words: a non-empty text of
the digits `0` to `9`, without leading zero, that denotes the number. -/
def IsDecimalOf (s : String) (n : Nat) : Prop :=
  s.data ≠ [] ∧ (∀ c ∈ s.data, c.isDigit = true) ∧ s.data.head? ≠ some '0' ∧
  decimalValue s.data = n

/-! ## The diff parser and the correlation

`readDiff` and `command.run` are called by `run` but their code is not in
main.go.  They are modelled here from the specification (sections 3, 4.1,
4.3 and 4.4). -/

/-- Modelled from the spec: the DiffModel of section 3 (the `contentChecker`
built by `readDiff`, whose code is not in main.go), a mapping from file path
to the changed line numbers of the new version, kept as an association list. -/
abbrev DiffModel := List (String × List Nat)

/-- Modelled from the spec: the changed-line set of a path in a DiffModel
(section 3), empty when the path is no key. -/
def linesOf (m : DiffModel) (path : String) : List Nat :=
  match m.lookup path with
  | some ls => ls
  | none => []

/-- Modelled from the spec: "record the current new-line counter as changed
for the active path" (section 4.1); later records of a path accumulate into
the same set. -/
def record (path : String) (n : Nat) : DiffModel → DiffModel
  | [] => [(path, [n])]
  | (q, ls) :: m => if q = path then (q, ls ++ [n]) :: m else (q, ls) :: record path n m

/-- Modelled from the spec: the state of the DiffParser of section 4.1 while
it scans the lines: the active path (none before the first file header and
for a deleted file), the running new-line counter, whether a hunk is open,
and the map built so far. -/
structure ScanState where
  path : Option String
  counter : Nat
  inHunk : Bool
  changed : DiffModel
  deriving DecidableEq, Repr

/-- Leading and trailing whitespace removed. -/
def trim (cs : List Char) : List Char :=
  ((cs.dropWhile Char.isWhitespace).reverse.dropWhile Char.isWhitespace).reverse

/-- Modelled from the spec: the path of a "new file" marker (section 4.1):
whitespace trimmed, the diff-tool prefix `a/` or `b/` stripped, and no path
for the deletion sentinel `/dev/null`. -/
def newPath (rest : List Char) : Option String :=
  if trim rest = "/dev/null".data then none
  else match trim rest with
    | c :: '/' :: tail => if c = 'a' ∨ c = 'b' then some (String.mk tail)
                          else some (String.mk (trim rest))
    | t => some (String.mk t)

/-- A non-empty run of decimal digits read as a number. -/
def parseNat? (cs : List Char) : Option Nat :=
  if cs = [] ∨ ¬ cs.all Char.isDigit = true then none
  else some (cs.foldl (fun n c => 10 * n + (c.toNat - 48)) 0)

/-- Modelled from the spec: one side `-start,count` or `+start,count` of a
hunk header (section 4.1); the count defaults to 1 when omitted. -/
def parseRange (sign : Char) : List Char → Option (Nat × Nat)
  | [] => none
  | c :: rest =>
    if c ≠ sign then none
    else match splitOnChar ',' rest with
      | [a] => match parseNat? a with
        | some x => some (x, 1)
        | none => none
      | [a, b] => match parseNat? a, parseNat? b with
        | some x, some y => some (x, y)
        | _, _ => none
      | _ => none

/-- Modelled from the spec: a hunk header `@@ -oldStart,oldCount
+newStart,newCount @@` (section 4.1); the result is `newStart`, and `none`
stands for a malformed header. -/
def parseHunkHeader (line : List Char) : Option Nat :=
  match splitOnChar ' ' line with
  | open_ :: old :: new :: close :: _ =>
    if open_ = "@@".data ∧ close = "@@".data then
      match parseRange '-' old, parseRange '+' new with
      | some _, some (newStart, _) => some newStart
      | _, _ => none
    else none
  | _ => none

/-- Modelled from the spec: the DiffParser of section 4.1 on one line.  A
`+++` line is the new-file marker and sets the active path, a `---` line is
the old-file marker; both close the hunk.  A `@@` line is a hunk header and
sets the counter to `newStart`, or fails when malformed.  Inside a hunk a `+`
line records the counter for the active path and increments it, a `-` line
does nothing, any other line is context and increments the counter.  Outside
a hunk other lines are ignored. -/
def scanLine (st : ScanState) (line : String) : Except String ScanState :=
  match line.data with
  | '+' :: '+' :: '+' :: rest => .ok { st with path := newPath rest, inHunk := false }
  | '-' :: '-' :: '-' :: _ => .ok { st with inHunk := false }
  | '@' :: '@' :: _ =>
    match parseHunkHeader line.data with
    | some newStart => .ok { st with counter := newStart, inHunk := true }
    | none => .error ("malformed hunk header: " ++ line)
  | '+' :: _ =>
    if st.inHunk then
      match st.path with
      | some p => .ok { st with counter := st.counter + 1, changed := record p st.counter st.changed }
      | none => .ok { st with counter := st.counter + 1 }
    else .ok st
  | '-' :: _ => .ok st
  | _ => if st.inHunk then .ok { st with counter := st.counter + 1 } else .ok st

/-- Modelled from the spec: the DiffParser of section 4.1 on the lines of a
diff, in order; the first malformed hunk header fails the whole parse. -/
def scanLines (st : ScanState) : List String → Except String ScanState
  | [] => .ok st
  | line :: rest =>
    match scanLine st line with
    | .ok st' => scanLines st' rest
    | .error e => .error e

/-- The state before the first line. -/
def ScanState.init : ScanState := ⟨none, 0, false, []⟩

/-- The lines of a text. -/
def linesOfText (text : String) : List String :=
  (splitOnChar '\n' text.data).map String.mk

/-- Modelled from the spec: `readDiff` (the DiffParser of section 4.1, whose
code is not in main.go) on the whole text of the reader. -/
def readDiff (text : String) : Except String DiffModel :=
  match scanLines ScanState.init (linesOfText text) with
  | .ok st => .ok st.changed
  | .error e => .error e

/-- Modelled from the spec: the ViolationModel of section 3 (the entries of the
report read by `readPMDFile`, whose code is not in main.go). -/
structure Violation where
  path : String
  line : Nat
  rule : String
  message : String
  severity : String
  deriving DecidableEq, Repr

/-- Modelled from the spec: a violation is relevant (section 3) when its
normalized path is a key of the changed-line map and its line is in that
key's set.  The normal form of paths, which the spec leaves open, is the
parameter `normalize`. -/
def relevant (normalize : String → String) (m : DiffModel) (v : Violation) : Bool :=
  match m.lookup (normalize v.path) with
  | some ls => ls.contains v.line
  | none => false

/-- Modelled from the spec: `command.run` (Correlator and Reporter of sections
4.3 and 4.4, whose code is not in main.go): the violations are visited in
order, every relevant one is rendered on the output and counted.  The result
is the rendered lines, the violations reported and their count. -/
def commandRun (normalize : String → String) (render : Violation → String) (m : DiffModel) :
    List Violation → List String × List Violation × Nat
  | [] => ([], [], 0)
  | v :: vs =>
    match commandRun normalize render m vs with
    | (out, kept, count) =>
      if relevant normalize m v then (render v :: out, v :: kept, count + 1)
      else (out, kept, count)

/-- The escape of one character in `strconv.Quote`, for ASCII text: a
backslash before the double quote and the backslash, the named escapes of the
control characters, `\x` and two hexadecimal digits for the other control
characters and for DEL, and the character itself otherwise. -/
def quoteChar (c : Char) : List Char :=
  let bs := Char.ofNat 92
  if c = Char.ofNat 34 then [bs, c]
  else if c = bs then [bs, bs]
  else if c = Char.ofNat 7 then [bs, 'a']
  else if c = Char.ofNat 8 then [bs, 'b']
  else if c = Char.ofNat 12 then [bs, 'f']
  else if c = Char.ofNat 10 then [bs, 'n']
  else if c = Char.ofNat 13 then [bs, 'r']
  else if c = Char.ofNat 9 then [bs, 't']
  else if c = Char.ofNat 11 then [bs, 'v']
  else if c.toNat < 32 ∨ c.toNat = 127 then
    [bs, 'x', Nat.digitChar (c.toNat / 16), Nat.digitChar (c.toNat % 16)]
  else [c]

/-- The function `strconv.Quote` on ASCII text: the text between double
quotes, each character escaped by `quoteChar`.  (Beyond ASCII the library
consults the Unicode tables for what is printable; here such characters are
kept as they are.) -/
def quoteASCII (s : String) : String :=
  String.mk (Char.ofNat 34 :: (s.data.flatMap quoteChar ++ [Char.ofNat 34]))

/-- The environment of `run` in which `readDiff` and `command.run` are the
models above and the reader is given by its text; reading files stays a
parameter.  The `%q` verb is `quoteASCII`. -/
def specEnv (normalize : String → String) (render : Violation → String)
    (readFile : String → Except String String)
    (readPMDFile : String → Except String (List Violation)) :
    Env String DiffModel (List Violation) where
  quote := quoteASCII
  readDiff := readDiff
  readDiffFile := fun p =>
    match readFile p with
    | .ok text => readDiff text
    | .error e => .error e
  readPMDFile := readPMDFile
  cmdRun := fun m vs =>
    match commandRun normalize render m vs with
    | (out, _, count) => (out, .ok (Int.ofNat count))

/-- A demonstration environment: the reader holds the diff text, the file
`changes.diff` holds a one-line change of `src/Foo.java`, and the report
`pmd-report.json` holds two violations of that file; no other file exists. -/
def demoEnv : Env String DiffModel (List Violation) :=
  specEnv id (fun v => v.path ++ ": " ++ v.rule ++ "\n")
    (fun p =>
      if p = "changes.diff" then
        .ok "--- a/src/Foo.java\n+++ b/src/Foo.java\n@@ -3,0 +4 @@\n+x\n"
      else .error ("open " ++ p ++ ": no such file or directory"))
    (fun p =>
      if p = "pmd-report.json" then
        .ok [⟨"src/Foo.java", 4, "UnusedLocal", "unused", "3"⟩,
             ⟨"src/Foo.java", 9, "EmptyCatch", "empty", "2"⟩]
      else .error ("open " ++ p ++ ": no such file or directory"))

/-! ## Theorems about `run` -/

theorem beginsWith_append (p x : String) : beginsWith p (p ++ x) := by
  unfold beginsWith
  rw [String.data_append]
  exact List.prefix_append _ _

theorem werrWrites_append (a b : List Event) :
    werrWrites (a ++ b) = werrWrites a ++ werrWrites b := by
  induction a with
  | nil => rfl
  | cons e t ih => cases e <;> simp [werrWrites, ih]

theorem woutWrites_append (a b : List Event) :
    woutWrites (a ++ b) = woutWrites a ++ woutWrites b := by
  induction a with
  | nil => rfl
  | cons e t ih => cases e <;> simp [woutWrites, ih]

theorem stdoutWrites_append (a b : List Event) :
    stdoutWrites (a ++ b) = stdoutWrites a ++ stdoutWrites b := by
  induction a with
  | nil => rfl
  | cons e t ih => cases e <;> simp [stdoutWrites, ih]

theorem werrWrites_reported (out : List String) :
    werrWrites (out.map Event.reported) = [] := by
  induction out with
  | nil => rfl
  | cons s t ih => simpa [werrWrites] using ih

theorem woutWrites_reported (out : List String) :
    woutWrites (out.map Event.reported) = [] := by
  induction out with
  | nil => rfl
  | cons s t ih => simpa [woutWrites] using ih

theorem stdoutWrites_reported (out : List String) :
    stdoutWrites (out.map Event.reported) = out := by
  induction out with
  | nil => rfl
  | cons s t ih => simpa [stdoutWrites] using ih

/-- The event logged for the diff read is a read of the reader or of a file,
never a write. -/
theorem readContent_fst {R C L : Type} (env : Env R C L) (d : String) (r : R) :
    (readContent env d r).1 = .readDiff (errOf (readContent env d r).2) ∨
    (readContent env d r).1 = .readDiffFile d (errOf (readContent env d r).2) := by
  unfold readContent
  split_ifs <;> simp

/-- The result of `run` once parsing, the argument count, the two reads and
the command have succeeded with count `n`. -/
theorem run_success_eq {R C L : Type} (env : Env R C L) (osArgs : List String) (r : R)
    (flags : FlagSet) (content : C) (linter : L) (out : List String) (n : Int)
    (hparse : Parse osArgs = .ok flags) (hhelp : flags.helpFlag = false)
    (hone : flags.args.length = 1)
    (hdiff : (readContent env flags.diffFlag r).2 = .ok content)
    (hreport : env.readPMDFile (flags.Arg 0) = .ok linter)
    (hcmd : env.cmdRun content linter = (out, .ok n)) :
    run env osArgs r =
      if n > 0 then
        ⟨1, [(readContent env flags.diffFlag r).1, .newTextReporter,
             .readPMDFile (flags.Arg 0) none, .cmdRun none]
             ++ out.map .reported ++ [.werr (fmtD n ++ " violations found.\n")]⟩
      else
        ⟨0, [(readContent env flags.diffFlag r).1, .newTextReporter,
             .readPMDFile (flags.Arg 0) none, .cmdRun none]
             ++ out.map .reported⟩ := by
  unfold run runParsed
  rw [hparse]
  simp only [hhelp, hone]
  rcases hrc : readContent env flags.diffFlag r with ⟨rd, res⟩
  rw [hrc] at hdiff
  simp only at hdiff
  subst hdiff
  simp only [hreport, hcmd]
  simp

/-- C1: when argument parsing succeeds, the help flag is not set, exactly one
positional argument is given, and the diff read, the report read and
`command.run` all succeed with violation count `n`, then `run` returns 1 if
`n >= 1` and 0 if `n = 0`; on this path the return value is 1 exactly when at
least one violation was counted. -/
theorem run_all_success_code {R C L : Type} (env : Env R C L) (osArgs : List String) (r : R)
    (flags : FlagSet) (content : C) (linter : L) (out : List String) (n : Int)
    (hparse : Parse osArgs = .ok flags) (hhelp : flags.helpFlag = false)
    (hone : flags.args.length = 1)
    (hdiff : (readContent env flags.diffFlag r).2 = .ok content)
    (hreport : env.readPMDFile (flags.Arg 0) = .ok linter)
    (hcmd : env.cmdRun content linter = (out, .ok n)) :
    (n ≥ 1 → (run env osArgs r).code = 1) ∧
    (n = 0 → (run env osArgs r).code = 0) ∧
    ((run env osArgs r).code = 1 ↔ n ≥ 1) := by
  rw [run_success_eq env osArgs r flags content linter out n hparse hhelp hone hdiff hreport hcmd]
  refine ⟨fun h => ?_, fun h => ?_, ?_⟩
  · rw [if_pos (by omega)]
  · rw [if_neg (by omega)]
  · by_cases h : n > 0
    · rw [if_pos h]; simp; omega
    · rw [if_neg h]; simp; omega

/-- C1 at `review -d changes.diff pmd-report.json`: one violation falls on the
changed line, all stages succeed, and `run` returns 1. -/
theorem run_all_success_code_witness :
    Parse ["-d", "changes.diff", "pmd-report.json"]
      = .ok ⟨"changes.diff", false, ["pmd-report.json"]⟩ ∧
    (run demoEnv ["-d", "changes.diff", "pmd-report.json"] "").code = 1 :=
  ⟨by decide,
   (run_all_success_code demoEnv ["-d", "changes.diff", "pmd-report.json"] ""
      ⟨"changes.diff", false, ["pmd-report.json"]⟩
      [("src/Foo.java", [4])]
      [⟨"src/Foo.java", 4, "UnusedLocal", "unused", "3"⟩,
       ⟨"src/Foo.java", 9, "EmptyCatch", "empty", "2"⟩]
      ["src/Foo.java: UnusedLocal\n"] 1
      (by decide) rfl rfl (by decide) (by decide) (by decide)).1 (by decide)⟩

/-- The result of `run` when flag parsing fails. -/
theorem run_parse_error_eq {R C L : Type} (env : Env R C L) (osArgs : List String) (r : R)
    (e : FlagError) (hparse : Parse osArgs = .error e) :
    run env osArgs r =
      ⟨2, [.flagOutput (e.Error env.quote ++ "\n"),
           .werr (usage ++ "\n"), .werr ("error: " ++ e.Error env.quote ++ "\n")]⟩ := by
  unfold run runParsed
  rw [hparse]

/-- The result of `run` when the help flag is set. -/
theorem run_help_eq {R C L : Type} (env : Env R C L) (osArgs : List String) (r : R)
    (flags : FlagSet) (hparse : Parse osArgs = .ok flags) (hhelp : flags.helpFlag = true) :
    run env osArgs r = ⟨0, [.wout (usage ++ "\n")]⟩ := by
  unfold run runParsed
  rw [hparse]
  simp only [hhelp, if_true]

/-- The result of `run` when the number of positional arguments is not 1. -/
theorem run_arg_count_eq {R C L : Type} (env : Env R C L) (osArgs : List String) (r : R)
    (flags : FlagSet) (hparse : Parse osArgs = .ok flags) (hhelp : flags.helpFlag = false)
    (hcount : flags.args.length ≠ 1) :
    run env osArgs r =
      ⟨2, [.werr (usage ++ "\n"), .werr "error: no report file provided\n"]⟩ := by
  unfold run runParsed
  rw [hparse]
  simp only [hhelp]
  rw [if_neg (by simp), if_pos hcount]

/-- The result of `run` when reading the diff fails. -/
theorem run_diff_error_eq {R C L : Type} (env : Env R C L) (osArgs : List String) (r : R)
    (flags : FlagSet) (e : String)
    (hparse : Parse osArgs = .ok flags) (hhelp : flags.helpFlag = false)
    (hone : flags.args.length = 1)
    (hdiff : (readContent env flags.diffFlag r).2 = .error e) :
    run env osArgs r =
      ⟨2, [(readContent env flags.diffFlag r).1,
           .werr ("error: could not read diff: " ++ e ++ "\n")]⟩ := by
  unfold run runParsed
  rw [hparse]
  simp only [hhelp, hone]
  rcases hrc : readContent env flags.diffFlag r with ⟨rd, res⟩
  rw [hrc] at hdiff
  simp only at hdiff
  subst hdiff
  simp

/-- The result of `run` when reading the report fails. -/
theorem run_report_error_eq {R C L : Type} (env : Env R C L) (osArgs : List String) (r : R)
    (flags : FlagSet) (content : C) (e : String)
    (hparse : Parse osArgs = .ok flags) (hhelp : flags.helpFlag = false)
    (hone : flags.args.length = 1)
    (hdiff : (readContent env flags.diffFlag r).2 = .ok content)
    (hreport : env.readPMDFile (flags.Arg 0) = .error e) :
    run env osArgs r =
      ⟨2, [(readContent env flags.diffFlag r).1, .newTextReporter,
           .readPMDFile (flags.Arg 0) (some e),
           .werr ("error: could not read report: " ++ e ++ "\n")]⟩ := by
  unfold run runParsed
  rw [hparse]
  simp only [hhelp, hone]
  rcases hrc : readContent env flags.diffFlag r with ⟨rd, res⟩
  rw [hrc] at hdiff
  simp only at hdiff
  subst hdiff
  simp only [hreport]
  simp

/-- The result of `run` when `cmd.run()` returns an error. -/
theorem run_command_error_eq {R C L : Type} (env : Env R C L) (osArgs : List String) (r : R)
    (flags : FlagSet) (content : C) (linter : L) (out : List String) (e : String)
    (hparse : Parse osArgs = .ok flags) (hhelp : flags.helpFlag = false)
    (hone : flags.args.length = 1)
    (hdiff : (readContent env flags.diffFlag r).2 = .ok content)
    (hreport : env.readPMDFile (flags.Arg 0) = .ok linter)
    (hcmd : env.cmdRun content linter = (out, .error e)) :
    run env osArgs r =
      ⟨2, [(readContent env flags.diffFlag r).1, .newTextReporter,
           .readPMDFile (flags.Arg 0) none, .cmdRun (some e)]
           ++ out.map .reported
           ++ [.werr ("error: command failed: " ++ e ++ "\n")]⟩ := by
  unfold run runParsed
  rw [hparse]
  simp only [hhelp, hone]
  rcases hrc : readContent env flags.diffFlag r with ⟨rd, res⟩
  rw [hrc] at hdiff
  simp only at hdiff
  subst hdiff
  simp only [hreport, hcmd]
  simp

/-- Every run takes one of the paths. -/
theorem path_exists {R C L : Type} (env : Env R C L) (osArgs : List String) (r : R) :
    Path env osArgs r := by
  rcases hparse : Parse osArgs with e | flags
  · exact .parseError e hparse
  · rcases hhelp : flags.helpFlag with _ | _
    · by_cases hone : flags.args.length = 1
      · rcases hdiff : (readContent env flags.diffFlag r).2 with e | content
        · exact .diffError flags e hparse hhelp hone hdiff
        · rcases hreport : env.readPMDFile (flags.Arg 0) with e | linter
          · exact .reportError flags content e hparse hhelp hone hdiff hreport
          · rcases hcmd : env.cmdRun content linter with ⟨out, e | n⟩
            · exact .commandError flags content linter out e hparse hhelp hone hdiff hreport hcmd
            · exact .success flags content linter out n hparse hhelp hone hdiff hreport hcmd
      · exact .argCount flags hparse hhelp hone
    · exact .help flags hparse hhelp

/-- The event logged for a diff read that succeeded carries no error. -/
theorem readContent_fst_ok {R C L : Type} (env : Env R C L) (d : String) (r : R) (content : C)
    (h : (readContent env d r).2 = .ok content) :
    (readContent env d r).1 = .readDiff none ∨
    (readContent env d r).1 = .readDiffFile d none := by
  have := readContent_fst env d r
  rw [h] at this
  simpa [errOf] using this

/-- The event logged for a diff read that failed carries its error. -/
theorem readContent_fst_error {R C L : Type} (env : Env R C L) (d : String) (r : R) (e : String)
    (h : (readContent env d r).2 = .error e) :
    (readContent env d r).1 = .readDiff (some e) ∨
    (readContent env d r).1 = .readDiffFile d (some e) := by
  have := readContent_fst env d r
  rw [h] at this
  simpa [errOf] using this

/-- The result the run takes as its diff is the one of the diff source. -/
theorem readContent_snd {R C L : Type} (env : Env R C L) (d : String) (r : R) :
    (readContent env d r).2 = diffSource env d r := by
  unfold readContent diffSource
  split_ifs <;> rfl

/-- C2: `run` returns 2 exactly when a stage fails: flag parsing returns an
error, or (help not set) the number of positional arguments is not 1, or the
diff read (from the reader or from the file of the diff option) returns an
error, or the diff is read and the report read returns an error, or both are
read and `command.run` returns an error on them.  These failures of the
collaborators are exactly the calls logged with an error in the trace. -/
theorem run_returns_two_iff {R C L : Type} (env : Env R C L) (osArgs : List String) (r : R) :
    ((run env osArgs r).code = 2 ↔
      ((∃ e, Parse osArgs = .error e) ∨
       (∃ flags, Parse osArgs = .ok flags ∧ flags.helpFlag = false ∧ flags.args.length ≠ 1) ∨
       (∃ flags e, Parse osArgs = .ok flags ∧ flags.helpFlag = false ∧
          flags.args.length = 1 ∧ diffSource env flags.diffFlag r = .error e) ∨
       (∃ flags content e, Parse osArgs = .ok flags ∧ flags.helpFlag = false ∧
          flags.args.length = 1 ∧ diffSource env flags.diffFlag r = .ok content ∧
          env.readPMDFile (flags.Arg 0) = .error e) ∨
       (∃ flags content linter out e, Parse osArgs = .ok flags ∧ flags.helpFlag = false ∧
          flags.args.length = 1 ∧ diffSource env flags.diffFlag r = .ok content ∧
          env.readPMDFile (flags.Arg 0) = .ok linter ∧
          env.cmdRun content linter = (out, .error e)))) ∧
    ((run env osArgs r).code = 2 ↔
      ((∃ e, Parse osArgs = .error e) ∨
       (∃ flags, Parse osArgs = .ok flags ∧ flags.helpFlag = false ∧ flags.args.length ≠ 1) ∨
       (∃ e, Event.readDiff (some e) ∈ (run env osArgs r).trace) ∨
       (∃ p e, Event.readDiffFile p (some e) ∈ (run env osArgs r).trace) ∨
       (∃ p e, Event.readPMDFile p (some e) ∈ (run env osArgs r).trace) ∨
       (∃ e, Event.cmdRun (some e) ∈ (run env osArgs r).trace))) := by
  rcases path_exists env osArgs r with
    ⟨e, hparse⟩ | ⟨flags, hparse, hhelp⟩ | ⟨flags, hparse, hhelp, hcount⟩ |
    ⟨flags, e, hparse, hhelp, hone, hdiff⟩ |
    ⟨flags, content, e, hparse, hhelp, hone, hdiff, hreport⟩ |
    ⟨flags, content, linter, out, e, hparse, hhelp, hone, hdiff, hreport, hcmd⟩ |
    ⟨flags, content, linter, out, n, hparse, hhelp, hone, hdiff, hreport, hcmd⟩
  · rw [run_parse_error_eq env osArgs r e hparse]
    simp [hparse]
  · rw [run_help_eq env osArgs r flags hparse hhelp]
    simp [hparse, hhelp]
  · rw [run_arg_count_eq env osArgs r flags hparse hhelp hcount]
    simp [hparse, hhelp, hcount]
  · rw [run_diff_error_eq env osArgs r flags e hparse hhelp hone hdiff]
    have hsrc := hdiff
    rw [readContent_snd] at hsrc
    rcases readContent_fst_error env flags.diffFlag r e hdiff with h | h <;>
      rw [h] <;> simp [hparse, hhelp, hone, hsrc]
  · rw [run_report_error_eq env osArgs r flags content e hparse hhelp hone hdiff hreport]
    have hsrc := hdiff
    rw [readContent_snd] at hsrc
    rcases readContent_fst_ok env flags.diffFlag r content hdiff with h | h <;>
      rw [h] <;> simp [hparse, hhelp, hone, hsrc, hreport]
  · rw [run_command_error_eq env osArgs r flags content linter out e hparse hhelp hone hdiff
      hreport hcmd]
    have hsrc := hdiff
    rw [readContent_snd] at hsrc
    rcases readContent_fst_ok env flags.diffFlag r content hdiff with h | h <;>
      rw [h] <;> simp [hparse, hhelp, hone, hsrc, hreport, hcmd]
  · rw [run_success_eq env osArgs r flags content linter out n hparse hhelp hone hdiff
      hreport hcmd]
    have hsrc := hdiff
    rw [readContent_snd] at hsrc
    rcases readContent_fst_ok env flags.diffFlag r content hdiff with h | h <;>
      rw [h] <;> split_ifs <;> simp [hparse, hhelp, hone, hsrc, hreport, hcmd]

/-- C3, as stated, fails at `review -h -x`: the help flag is given and is set
when parsing reaches `-x`, yet parsing fails, `run` returns 2, writes the
usage text and the error on the error stream and nothing on standard output. -/
theorem help_with_undefined_flag_returns_two :
    parseOne ⟨"", false, ["-h", "-x"]⟩ = .seen ⟨"", true, ["-x"]⟩ ∧
    Parse ["-h", "-x"] = .error (.notDefined "x") ∧
    (run demoEnv ["-h", "-x"] "").code = 2 ∧
    stdoutWrites (run demoEnv ["-h", "-x"] "").trace = [] ∧
    werrWrites (run demoEnv ["-h", "-x"] "").trace
      = [usage ++ "\n", "error: flag provided but not defined: -x\n"] := by
  refine ⟨by decide, by decide, by decide, by decide, by rfl⟩

/-- C3, amended: for every command line that flag parsing accepts and that
leaves the help flag set, `run` writes the usage text followed by a newline on
standard output and returns 0, and does nothing else: whatever the diff option
and the positional arguments are (a missing report file included), no diff
and no report is read, the command is not run, and nothing is written on the
error stream. -/
theorem run_help_short_circuits {R C L : Type} (env : Env R C L) (osArgs : List String)
    (r : R) (flags : FlagSet) (hparse : Parse osArgs = .ok flags)
    (hhelp : flags.helpFlag = true) :
    (run env osArgs r).code = 0 ∧
    (run env osArgs r).trace = [.wout (usage ++ "\n")] ∧
    stdoutWrites (run env osArgs r).trace = [usage ++ "\n"] ∧
    werrWrites (run env osArgs r).trace = [] := by
  rw [run_help_eq env osArgs r flags hparse hhelp]
  simp [stdoutWrites, werrWrites]

/-- C3, amended, at `review --help -d changes.diff`, where the report file is
missing. -/
theorem run_help_short_circuits_witness :
    Parse ["--help", "-d", "changes.diff"] = .ok ⟨"changes.diff", true, []⟩ ∧
    (run demoEnv ["--help", "-d", "changes.diff"] "").code = 0 ∧
    (run demoEnv ["--help", "-d", "changes.diff"] "").trace = [.wout (usage ++ "\n")] :=
  ⟨by decide,
   (run_help_short_circuits demoEnv ["--help", "-d", "changes.diff"] ""
      ⟨"changes.diff", true, []⟩ (by decide) rfl).1,
   (run_help_short_circuits demoEnv ["--help", "-d", "changes.diff"] ""
      ⟨"changes.diff", true, []⟩ (by decide) rfl).2.1⟩

/-- C4: for every successfully parsed command line without the help flag whose
number of positional arguments is 0 or is 2 or more, `run` writes on the
error stream the usage text and a newline, then exactly
`error: no report file provided` and a newline, returns 2, writes nothing on
standard output, and reads neither the diff nor the report. -/
theorem run_no_report_file {R C L : Type} (env : Env R C L) (osArgs : List String)
    (r : R) (flags : FlagSet) (hparse : Parse osArgs = .ok flags)
    (hhelp : flags.helpFlag = false)
    (hcount : flags.args.length = 0 ∨ 2 ≤ flags.args.length) :
    (run env osArgs r).code = 2 ∧
    (run env osArgs r).trace
      = [.werr (usage ++ "\n"), .werr "error: no report file provided\n"] ∧
    werrWrites (run env osArgs r).trace
      = [usage ++ "\n", "error: no report file provided\n"] ∧
    stdoutWrites (run env osArgs r).trace = [] := by
  rw [run_arg_count_eq env osArgs r flags hparse hhelp (by omega)]
  simp [stdoutWrites, werrWrites]

/-- C4 at `review -d changes.diff a.json b.json`, with two positional
arguments. -/
theorem run_no_report_file_witness :
    (run demoEnv ["-d", "changes.diff", "a.json", "b.json"] "").code = 2 ∧
    (run demoEnv ["-d", "changes.diff", "a.json", "b.json"] "").trace
      = [.werr (usage ++ "\n"), .werr "error: no report file provided\n"] :=
  ⟨(run_no_report_file demoEnv ["-d", "changes.diff", "a.json", "b.json"] ""
      ⟨"changes.diff", false, ["a.json", "b.json"]⟩ (by decide) rfl (Or.inr (by decide))).1,
   (run_no_report_file demoEnv ["-d", "changes.diff", "a.json", "b.json"] ""
      ⟨"changes.diff", false, ["a.json", "b.json"]⟩ (by decide) rfl (Or.inr (by decide))).2.1⟩

/-- The run uses the result of `readContent` as its diff. -/
theorem run_uses_readContent {R C L : Type} (env : Env R C L) (osArgs : List String)
    (r : R) (flags : FlagSet) (hparse : Parse osArgs = .ok flags)
    (hhelp : flags.helpFlag = false) (hone : flags.args.length = 1) :
    UsesDiff env osArgs r flags (readContent env flags.diffFlag r).2 := by
  refine ⟨fun e hsrc => ?_, fun content linter out res hsrc hreport hcmd => ?_⟩
  · rw [run_diff_error_eq env osArgs r flags e hparse hhelp hone hsrc]
    rcases readContent_fst_error env flags.diffFlag r e hsrc with h | h <;> rw [h] <;>
      simp [werrWrites]
  · have hrd : stdoutWrites [(readContent env flags.diffFlag r).1] = [] := by
      rcases readContent_fst_ok env flags.diffFlag r content hsrc with h | h <;> rw [h] <;> rfl
    have hsplit : ∀ x : Event, [(readContent env flags.diffFlag r).1, Event.newTextReporter,
        .readPMDFile (flags.Arg 0) none, x]
        = [(readContent env flags.diffFlag r).1]
          ++ [Event.newTextReporter, .readPMDFile (flags.Arg 0) none, x] := fun _ => rfl
    cases res with
    | error e =>
      rw [run_command_error_eq env osArgs r flags content linter out e hparse hhelp hone hsrc
        hreport hcmd, hsplit]
      refine ⟨?_, by simp [errOf], rfl⟩
      simp only [stdoutWrites_append, stdoutWrites_reported, hrd]
      simp [stdoutWrites]
    | ok n =>
      rw [run_success_eq env osArgs r flags content linter out n hparse hhelp hone hsrc
        hreport hcmd]
      by_cases hn : n > 0
      · rw [if_pos hn, hsplit]
        refine ⟨?_, by simp [errOf], by simp [hn]⟩
        simp only [stdoutWrites_append, stdoutWrites_reported, hrd]
        simp [stdoutWrites]
      · rw [if_neg hn, hsplit]
        refine ⟨?_, by simp [errOf], by simp [hn]⟩
        simp only [stdoutWrites_append, stdoutWrites_reported, hrd]
        simp [stdoutWrites]

/-- C5: for every valid command line with exactly one positional argument and
no help flag, the diff is read from the reader passed to `run` if and only if
the diff option is empty (omitted) or `-`: then the run uses the result of
`readDiff(r)` as its diff and does not depend on what reading a file gives.
For every other value the run uses the result of `readDiffFile` on the file
of that name, and does not depend on what reading the reader gives: the
reader is not consulted. -/
theorem run_diff_source {R C L : Type} (env : Env R C L) (osArgs : List String)
    (r : R) (flags : FlagSet) (hparse : Parse osArgs = .ok flags)
    (hhelp : flags.helpFlag = false) (hone : flags.args.length = 1) :
    ((∃ err, Event.readDiff err ∈ (run env osArgs r).trace)
        ↔ (flags.diffFlag = "" ∨ flags.diffFlag = "-")) ∧
    ((flags.diffFlag = "" ∨ flags.diffFlag = "-") →
        ∀ p err, Event.readDiffFile p err ∉ (run env osArgs r).trace) ∧
    (¬ (flags.diffFlag = "" ∨ flags.diffFlag = "-") →
        (∃ err, Event.readDiffFile flags.diffFlag err ∈ (run env osArgs r).trace) ∧
        (∀ p err, Event.readDiffFile p err ∈ (run env osArgs r).trace → p = flags.diffFlag) ∧
        (∀ err, Event.readDiff err ∉ (run env osArgs r).trace)) ∧
    ((flags.diffFlag = "" ∨ flags.diffFlag = "-") →
        UsesDiff env osArgs r flags (env.readDiff r) ∧
        ∀ g, run { env with readDiffFile := g } osArgs r = run env osArgs r) ∧
    (¬ (flags.diffFlag = "" ∨ flags.diffFlag = "-") →
        UsesDiff env osArgs r flags (env.readDiffFile flags.diffFlag) ∧
        ∀ g, run { env with readDiff := g } osArgs r = run env osArgs r) := by
  have hfst : (readContent env flags.diffFlag r).1 =
      if flags.diffFlag = "" ∨ flags.diffFlag = "-" then
        .readDiff (errOf (env.readDiff r))
      else .readDiffFile flags.diffFlag (errOf (env.readDiffFile flags.diffFlag)) := by
    unfold readContent; split_ifs <;> rfl
  have huses := run_uses_readContent env osArgs r flags hparse hhelp hone
  refine ⟨?_, ?_, ?_, fun hd => ⟨?_, fun g => ?_⟩, fun hd => ⟨?_, fun g => ?_⟩⟩
  rotate_left 3
  · rw [readContent_snd, diffSource, if_pos hd] at huses
    exact huses
  · unfold run runParsed
    rw [hparse]
    simp only [hhelp, hone]
    have : readContent { env with readDiffFile := g } flags.diffFlag r
        = readContent env flags.diffFlag r := by
      unfold readContent
      rw [if_pos hd, if_pos hd]
    rw [this]
  · rw [readContent_snd, diffSource, if_neg hd] at huses
    exact huses
  · unfold run runParsed
    rw [hparse]
    simp only [hhelp, hone]
    have : readContent { env with readDiff := g } flags.diffFlag r
        = readContent env flags.diffFlag r := by
      unfold readContent
      rw [if_neg hd, if_neg hd]
    rw [this]
  all_goals
    rcases path_exists env osArgs r with
      ⟨e, hp⟩ | ⟨fl, hp, hh⟩ | ⟨fl, hp, hh, hcount⟩ |
      ⟨fl, e, hp, hh, ho, hdiff⟩ |
      ⟨fl, content, e, hp, hh, ho, hdiff, hreport⟩ |
      ⟨fl, content, linter, out, e, hp, hh, ho, hdiff, hreport, hcmd⟩ |
      ⟨fl, content, linter, out, n, hp, hh, ho, hdiff, hreport, hcmd⟩
    · rw [hparse] at hp; cases hp
    · rw [hparse] at hp; cases hp; rw [hhelp] at hh; cases hh
    · rw [hparse] at hp; cases hp; exact absurd hone hcount
    · rw [hparse] at hp; cases hp
      rw [run_diff_error_eq env osArgs r flags e hparse hhelp hone hdiff, hfst]
      by_cases hd : flags.diffFlag = "" ∨ flags.diffFlag = "-"
      · simp [hd]
      · simp [hd]
    · rw [hparse] at hp; cases hp
      rw [run_report_error_eq env osArgs r flags content e hparse hhelp hone hdiff hreport, hfst]
      by_cases hd : flags.diffFlag = "" ∨ flags.diffFlag = "-"
      · simp [hd]
      · simp [hd]
    · rw [hparse] at hp; cases hp
      rw [run_command_error_eq env osArgs r flags content linter out e hparse hhelp hone hdiff
        hreport hcmd, hfst]
      by_cases hd : flags.diffFlag = "" ∨ flags.diffFlag = "-"
      · simp [hd]
      · simp [hd]
    · rw [hparse] at hp; cases hp
      rw [run_success_eq env osArgs r flags content linter out n hparse hhelp hone hdiff
        hreport hcmd, hfst]
      by_cases hd : flags.diffFlag = "" ∨ flags.diffFlag = "-"
      · split_ifs <;> simp [hd]
      · split_ifs <;> simp [hd]

/-- C5 at `review -d changes.diff pmd-report.json`: the diff is read from the
file `changes.diff`, the command runs on the content of that file, and the
run does not depend on the reader. -/
theorem run_diff_source_witness :
    (∃ err, Event.readDiffFile "changes.diff" err
        ∈ (run demoEnv ["-d", "changes.diff", "pmd-report.json"] "").trace) ∧
    (∀ err, Event.readDiff err
        ∉ (run demoEnv ["-d", "changes.diff", "pmd-report.json"] "").trace) ∧
    UsesDiff demoEnv ["-d", "changes.diff", "pmd-report.json"] ""
      ⟨"changes.diff", false, ["pmd-report.json"]⟩ (demoEnv.readDiffFile "changes.diff") ∧
    (∀ g, run { demoEnv with readDiff := g } ["-d", "changes.diff", "pmd-report.json"] ""
        = run demoEnv ["-d", "changes.diff", "pmd-report.json"] "") :=
  ⟨((run_diff_source demoEnv ["-d", "changes.diff", "pmd-report.json"] ""
      ⟨"changes.diff", false, ["pmd-report.json"]⟩ (by decide) rfl rfl).2.2.1 (by decide)).1,
   ((run_diff_source demoEnv ["-d", "changes.diff", "pmd-report.json"] ""
      ⟨"changes.diff", false, ["pmd-report.json"]⟩ (by decide) rfl rfl).2.2.1 (by decide)).2.2,
   ((run_diff_source demoEnv ["-d", "changes.diff", "pmd-report.json"] ""
      ⟨"changes.diff", false, ["pmd-report.json"]⟩ (by decide) rfl rfl).2.2.2.2 (by decide)).1,
   ((run_diff_source demoEnv ["-d", "changes.diff", "pmd-report.json"] ""
      ⟨"changes.diff", false, ["pmd-report.json"]⟩ (by decide) rfl rfl).2.2.2.2 (by decide)).2⟩

/-! ### The messages on the error stream -/

theorem beginsWith_append_right (p a b : String) (h : beginsWith p a) :
    beginsWith p (a ++ b) := by
  unfold beginsWith at *
  rw [String.data_append]
  exact h.trans (List.prefix_append _ _)

/-- A text that begins with `error: ` has `e` as its first character. -/
theorem head_of_beginsWith_error (s : String) (h : beginsWith "error: " s) :
    s.data.head? = some 'e' := by
  unfold beginsWith at h
  obtain ⟨t, ht⟩ := h
  rw [← ht]
  rfl

/-- A decimal digit is not the letter `e`. -/
theorem digitChar_ne_e (m : Nat) (h : m < 10) : Nat.digitChar m ≠ 'e' := by
  interval_cases m <;> decide

/-- The digits of a number do not start with the letter `e`. -/
theorem toDigitsCore_head (fuel n : Nat) (ds : List Char)
    (h : ds.head? ≠ some 'e') : (Nat.toDigitsCore 10 fuel n ds).head? ≠ some 'e' := by
  induction fuel generalizing n ds with
  | zero => simpa [Nat.toDigitsCore] using h
  | succ fuel ih =>
    have hd : (Nat.digitChar (n % 10) :: ds).head? ≠ some 'e' := by
      simpa using digitChar_ne_e (n % 10) (Nat.mod_lt _ (by decide))
    unfold Nat.toDigitsCore
    simp only
    split_ifs
    · exact hd
    · exact ih _ _ hd

/-- The message `<n> violations found.` does not begin with `error: `. -/
theorem violations_message_not_error (n : Int) (hn : n ≥ 1) :
    ¬ beginsWith "error: " (fmtD n ++ " violations found.\n") := by
  intro hb
  have hhead := head_of_beginsWith_error _ hb
  cases n with
  | negSucc m =>
    have := Int.negSucc_lt_zero m
    omega
  | ofNat m =>
    have hdig : (Nat.toDigits 10 m).head? ≠ some 'e' :=
      toDigitsCore_head _ _ _ (by simp)
    simp only [fmtD, Nat.repr, String.data_append, List.asString] at hhead
    cases hl : Nat.toDigits 10 m with
    | nil =>
      rw [hl] at hhead
      exact absurd hhead (by decide)
    | cons c cs =>
      rw [hl] at hhead hdig
      simp at hhead hdig
      exact hdig hhead

/-- The usage text does not begin with `error: `. -/
theorem usage_not_error : ¬ beginsWith "error: " (usage ++ "\n") := by
  decide

/-- The character of a decimal digit is a digit, and denotes it. -/
theorem digitChar_decimal (m : Nat) (h : m < 10) :
    (Nat.digitChar m).isDigit = true ∧ (Nat.digitChar m).toNat - 48 = m ∧
    (0 < m → Nat.digitChar m ≠ '0') := by
  interval_cases m <;> decide

theorem decimalValue_append (l : List Char) (c : Char) :
    decimalValue (l ++ [c]) = 10 * decimalValue l + (c.toNat - 48) := by
  simp [decimalValue, List.foldl_append]

/-- The digits `Nat.toDigitsCore` puts before the accumulator are decimal
digits without leading zero that denote the number, once the fuel exceeds the
number. -/
theorem toDigitsCore_decimal (fuel : Nat) : ∀ (n : Nat) (ds : List Char), n < fuel →
    ∃ l, Nat.toDigitsCore 10 fuel n ds = l ++ ds ∧ l ≠ [] ∧
      (∀ c ∈ l, c.isDigit = true) ∧ (0 < n → l.head? ≠ some '0') ∧ decimalValue l = n := by
  induction fuel with
  | zero => intro n ds h; omega
  | succ fuel ih =>
    intro n ds h
    obtain ⟨hdig, hval, hnz⟩ := digitChar_decimal (n % 10) (Nat.mod_lt _ (by decide))
    unfold Nat.toDigitsCore
    simp only
    by_cases h0 : n / 10 = 0
    · rw [if_pos h0]
      have hn : n % 10 = n := Nat.mod_eq_of_lt (by omega)
      refine ⟨[Nat.digitChar (n % 10)], rfl, by simp, ?_, ?_, ?_⟩
      · intro c hc
        rw [List.mem_singleton] at hc
        rw [hc]; exact hdig
      · intro hpos
        have := hnz (by omega)
        simpa using this
      · have hv := hval
        rw [hn] at hv
        simp [decimalValue, hn, hv]
    · rw [if_neg h0]
      obtain ⟨l, hl, hne, hall, hhead, hv⟩ :=
        ih (n / 10) (Nat.digitChar (n % 10) :: ds) (by omega)
      refine ⟨l ++ [Nat.digitChar (n % 10)], by rw [hl]; simp, by simp, ?_, ?_, ?_⟩
      · intro c hc
        rcases List.mem_append.1 hc with hc | hc
        · exact hall c hc
        · rw [List.mem_singleton] at hc
          rw [hc]; exact hdig
      · intro _
        have := hhead (by omega)
        cases l with
        | nil => exact absurd rfl hne
        | cons x xs => simpa using this
      · rw [decimalValue_append, hv, hval]
        omega

/-- The verb `%d` renders a positive number in decimal. -/
theorem fmtD_decimal (n : Int) (hn : n ≥ 1) : IsDecimalOf (fmtD n) n.toNat := by
  cases n with
  | negSucc m =>
    have := Int.negSucc_lt_zero m
    omega
  | ofNat m =>
    have hm : 0 < m := by
      have : (Int.ofNat m) = (m : Int) := rfl
      omega
    obtain ⟨l, hl, hne, hall, hhead, hv⟩ := toDigitsCore_decimal (m + 1) m [] (by omega)
    have hdata : (fmtD (Int.ofNat m)).data = l := by
      simp only [fmtD, Nat.repr, Nat.toDigits, List.asString, hl, List.append_nil]
    unfold IsDecimalOf
    rw [hdata]
    exact ⟨hne, hall, hhead hm, by simpa using hv⟩

/-- C6: when all stages succeed with violation count `n >= 1`, `run` itself
writes on the error stream exactly the decimal rendering of `n` followed by
` violations found.` and a newline, a message that does not begin with
`error: `; it writes nothing itself on standard output, where only the
reporter wrote, and returns 1.  When `n = 0` it writes nothing on the error
stream.  The decimal rendering is a text of decimal digits without leading
zero that denotes `n`, the one `toString` gives. -/
theorem run_violations_message {R C L : Type} (env : Env R C L) (osArgs : List String) (r : R)
    (flags : FlagSet) (content : C) (linter : L) (out : List String) (n : Int)
    (hparse : Parse osArgs = .ok flags) (hhelp : flags.helpFlag = false)
    (hone : flags.args.length = 1)
    (hdiff : (readContent env flags.diffFlag r).2 = .ok content)
    (hreport : env.readPMDFile (flags.Arg 0) = .ok linter)
    (hcmd : env.cmdRun content linter = (out, .ok n)) :
    (n ≥ 1 →
      werrWrites (run env osArgs r).trace = [fmtD n ++ " violations found.\n"] ∧
      ¬ beginsWith "error: " (fmtD n ++ " violations found.\n") ∧
      woutWrites (run env osArgs r).trace = [] ∧
      stdoutWrites (run env osArgs r).trace = out ∧
      (run env osArgs r).code = 1) ∧
    (n = 0 → werrWrites (run env osArgs r).trace = []) ∧
    (n ≥ 1 →
      (∃ s, werrWrites (run env osArgs r).trace = [s ++ " violations found.\n"] ∧
        IsDecimalOf s n.toNat ∧ s = toString n)) := by
  have hfmt : n ≥ 1 → IsDecimalOf (fmtD n) n.toNat ∧ fmtD n = toString n := by
    intro h
    refine ⟨fmtD_decimal n h, ?_⟩
    cases n <;> rfl
  rw [run_success_eq env osArgs r flags content linter out n hparse hhelp hone hdiff hreport hcmd]
  refine ⟨fun h => ?_, fun h => ?_, fun h => ?_⟩
  · rw [if_pos (by omega)]
    refine ⟨?_, violations_message_not_error n h, ?_, ?_, rfl⟩ <;>
    rcases readContent_fst_ok env flags.diffFlag r content hdiff with h1 | h1 <;>
      rw [h1] <;>
      simp [werrWrites, woutWrites, stdoutWrites, werrWrites_append, woutWrites_append,
        stdoutWrites_append, werrWrites_reported, woutWrites_reported, stdoutWrites_reported]
  · rw [if_neg (by omega)]
    rcases readContent_fst_ok env flags.diffFlag r content hdiff with h1 | h1 <;>
      rw [h1] <;>
      simp [werrWrites, werrWrites_append, werrWrites_reported]
  · rw [if_pos (by omega)]
    refine ⟨fmtD n, ?_, (hfmt h).1, (hfmt h).2⟩
    rcases readContent_fst_ok env flags.diffFlag r content hdiff with h1 | h1 <;>
      rw [h1] <;>
      simp [werrWrites, werrWrites_append, werrWrites_reported]

/-- C6 at `review -d changes.diff pmd-report.json`: one violation is counted,
and `run` writes `1 violations found.` on the error stream. -/
theorem run_violations_message_witness :
    werrWrites (run demoEnv ["-d", "changes.diff", "pmd-report.json"] "").trace
      = ["1 violations found.\n"] ∧
    stdoutWrites (run demoEnv ["-d", "changes.diff", "pmd-report.json"] "").trace
      = ["src/Foo.java: UnusedLocal\n"] ∧
    (∃ s, werrWrites (run demoEnv ["-d", "changes.diff", "pmd-report.json"] "").trace
        = [s ++ " violations found.\n"] ∧ IsDecimalOf s 1 ∧ s = "1") :=
  ⟨((run_violations_message demoEnv ["-d", "changes.diff", "pmd-report.json"] ""
      ⟨"changes.diff", false, ["pmd-report.json"]⟩
      [("src/Foo.java", [4])]
      [⟨"src/Foo.java", 4, "UnusedLocal", "unused", "3"⟩,
       ⟨"src/Foo.java", 9, "EmptyCatch", "empty", "2"⟩]
      ["src/Foo.java: UnusedLocal\n"] 1
      (by decide) rfl rfl (by decide) (by decide) (by decide)).1 (by decide)).1,
   ((run_violations_message demoEnv ["-d", "changes.diff", "pmd-report.json"] ""
      ⟨"changes.diff", false, ["pmd-report.json"]⟩
      [("src/Foo.java", [4])]
      [⟨"src/Foo.java", 4, "UnusedLocal", "unused", "3"⟩,
       ⟨"src/Foo.java", 9, "EmptyCatch", "empty", "2"⟩]
      ["src/Foo.java: UnusedLocal\n"] 1
      (by decide) rfl rfl (by decide) (by decide) (by decide)).1 (by decide)).2.2.2.1,
   (run_violations_message demoEnv ["-d", "changes.diff", "pmd-report.json"] ""
      ⟨"changes.diff", false, ["pmd-report.json"]⟩
      [("src/Foo.java", [4])]
      [⟨"src/Foo.java", 4, "UnusedLocal", "unused", "3"⟩,
       ⟨"src/Foo.java", 9, "EmptyCatch", "empty", "2"⟩]
      ["src/Foo.java: UnusedLocal\n"] 1
      (by decide) rfl rfl (by decide) (by decide) (by decide)).2.2 (by decide)⟩

/-- A message `error: <context><text>` followed by a newline begins with
`error: `. -/
theorem error_message_begins (ctx text : String) (h : beginsWith "error: " ctx) :
    beginsWith "error: " (ctx ++ text ++ "\n") :=
  beginsWith_append_right _ _ _ (beginsWith_append_right _ _ _ h)

/-- On every path where `run` returns 2, `run` makes exactly one write
beginning with `error: ` on the error stream, preceded by the usage text only
for argument errors; the write holds the text of the underlying error; and
`run` itself writes nothing on standard output. -/
theorem run_error_writes {R C L : Type} (env : Env R C L) (osArgs : List String)
    (r : R) (hcode : (run env osArgs r).code = 2) :
    woutWrites (run env osArgs r).trace = [] ∧
    (werrWrites (run env osArgs r).trace).countP
      (fun s => decide (beginsWith "error: " s)) = 1 ∧
    ((∃ e, Parse osArgs = .error e ∧
        werrWrites (run env osArgs r).trace
          = [usage ++ "\n", "error: " ++ e.Error env.quote ++ "\n"]) ∨
     (∃ flags, Parse osArgs = .ok flags ∧ flags.helpFlag = false ∧ flags.args.length ≠ 1 ∧
        werrWrites (run env osArgs r).trace
          = [usage ++ "\n", "error: no report file provided\n"]) ∨
     (∃ e, (Event.readDiff (some e) ∈ (run env osArgs r).trace ∨
            ∃ p, Event.readDiffFile p (some e) ∈ (run env osArgs r).trace) ∧
        werrWrites (run env osArgs r).trace
          = ["error: could not read diff: " ++ e ++ "\n"]) ∨
     (∃ p e, Event.readPMDFile p (some e) ∈ (run env osArgs r).trace ∧
        werrWrites (run env osArgs r).trace
          = ["error: could not read report: " ++ e ++ "\n"]) ∨
     (∃ e, Event.cmdRun (some e) ∈ (run env osArgs r).trace ∧
        werrWrites (run env osArgs r).trace
          = ["error: command failed: " ++ e ++ "\n"])) := by
  have hu : decide (beginsWith "error: " (usage ++ "\n")) = false :=
    decide_eq_false usage_not_error
  rcases path_exists env osArgs r with
    ⟨e, hparse⟩ | ⟨flags, hparse, hhelp⟩ | ⟨flags, hparse, hhelp, hcount⟩ |
    ⟨flags, e, hparse, hhelp, hone, hdiff⟩ |
    ⟨flags, content, e, hparse, hhelp, hone, hdiff, hreport⟩ |
    ⟨flags, content, linter, out, e, hparse, hhelp, hone, hdiff, hreport, hcmd⟩ |
    ⟨flags, content, linter, out, n, hparse, hhelp, hone, hdiff, hreport, hcmd⟩
  · rw [run_parse_error_eq env osArgs r e hparse]
    have hm : decide (beginsWith "error: " ("error: " ++ e.Error env.quote ++ "\n")) = true :=
      decide_eq_true (error_message_begins _ _ (by decide))
    refine ⟨rfl, ?_, Or.inl ⟨e, hparse, rfl⟩⟩
    simp only [werrWrites, List.countP_cons, List.countP_nil, hu, hm]
    rfl
  · rw [run_help_eq env osArgs r flags hparse hhelp] at hcode
    exact absurd hcode (by decide)
  · rw [run_arg_count_eq env osArgs r flags hparse hhelp hcount]
    have hm : decide (beginsWith "error: " "error: no report file provided\n") = true := by
      decide
    refine ⟨rfl, ?_, Or.inr (Or.inl ⟨flags, hparse, hhelp, hcount, rfl⟩)⟩
    simp only [werrWrites, List.countP_cons, List.countP_nil, hu, hm]
    rfl
  · rw [run_diff_error_eq env osArgs r flags e hparse hhelp hone hdiff]
    have hm : decide (beginsWith "error: " ("error: could not read diff: " ++ e ++ "\n"))
        = true := decide_eq_true (error_message_begins _ _ (by decide))
    rcases readContent_fst_error env flags.diffFlag r e hdiff with h | h <;> rw [h]
    · refine ⟨rfl, ?_, Or.inr (Or.inr (Or.inl ⟨e, Or.inl (by simp), rfl⟩))⟩
      simp only [werrWrites, List.countP_cons, List.countP_nil, hm]
      rfl
    · refine ⟨rfl, ?_, Or.inr (Or.inr (Or.inl ⟨e, Or.inr ⟨flags.diffFlag, by simp⟩, rfl⟩))⟩
      simp only [werrWrites, List.countP_cons, List.countP_nil, hm]
      rfl
  · rw [run_report_error_eq env osArgs r flags content e hparse hhelp hone hdiff hreport]
    have hm : decide (beginsWith "error: " ("error: could not read report: " ++ e ++ "\n"))
        = true := decide_eq_true (error_message_begins _ _ (by decide))
    rcases readContent_fst_ok env flags.diffFlag r content hdiff with h | h <;> rw [h] <;>
    · refine ⟨rfl, ?_, Or.inr (Or.inr (Or.inr (Or.inl ⟨flags.Arg 0, e, by simp, rfl⟩)))⟩
      simp only [werrWrites, List.countP_cons, List.countP_nil, hm]
      rfl
  · rw [run_command_error_eq env osArgs r flags content linter out e hparse hhelp hone hdiff
      hreport hcmd]
    have hm : decide (beginsWith "error: " ("error: command failed: " ++ e ++ "\n"))
        = true := decide_eq_true (error_message_begins _ _ (by decide))
    have hw : ∀ rd : Event, werrWrites [rd] = [] →
        werrWrites ([rd, .newTextReporter, .readPMDFile (flags.Arg 0) none, .cmdRun (some e)]
          ++ out.map .reported ++ [.werr ("error: command failed: " ++ e ++ "\n")])
          = ["error: command failed: " ++ e ++ "\n"] := by
      intro rd hrd
      have : [rd, Event.newTextReporter, .readPMDFile (flags.Arg 0) none, .cmdRun (some e)]
          = [rd] ++ [Event.newTextReporter, .readPMDFile (flags.Arg 0) none, .cmdRun (some e)] :=
        rfl
      rw [this]
      simp only [werrWrites_append, werrWrites_reported, hrd]
      rfl
    have hv : ∀ rd : Event, woutWrites [rd] = [] →
        woutWrites ([rd, .newTextReporter, .readPMDFile (flags.Arg 0) none, .cmdRun (some e)]
          ++ out.map .reported ++ [.werr ("error: command failed: " ++ e ++ "\n")]) = [] := by
      intro rd hrd
      have : [rd, Event.newTextReporter, .readPMDFile (flags.Arg 0) none, .cmdRun (some e)]
          = [rd] ++ [Event.newTextReporter, .readPMDFile (flags.Arg 0) none, .cmdRun (some e)] :=
        rfl
      rw [this]
      simp only [woutWrites_append, woutWrites_reported, hrd]
      rfl
    have hrd : werrWrites [(readContent env flags.diffFlag r).1] = [] ∧
        woutWrites [(readContent env flags.diffFlag r).1] = [] := by
      rcases readContent_fst_ok env flags.diffFlag r content hdiff with h | h <;> rw [h] <;>
        exact ⟨rfl, rfl⟩
    refine ⟨hv _ hrd.2, ?_, Or.inr (Or.inr (Or.inr (Or.inr ⟨e, by simp, hw _ hrd.1⟩)))⟩
    rw [hw _ hrd.1]
    simp only [List.countP_cons, List.countP_nil, hm]
    rfl
  · rw [run_success_eq env osArgs r flags content linter out n hparse hhelp hone hdiff
      hreport hcmd] at hcode
    split_ifs at hcode <;> simp at hcode

/-! ### The lines of the error stream -/

theorem splitOnChar_ne_nil (sep : Char) (l : List Char) : splitOnChar sep l ≠ [] := by
  cases l with
  | nil => simp [splitOnChar]
  | cons c cs =>
    unfold splitOnChar
    split
    · simp
    · split_ifs <;> simp

/-- The lines of a text with a separator in it: those before it, then those
after it. -/
theorem splitOnChar_append_sep (sep : Char) (a b : List Char) :
    splitOnChar sep (a ++ sep :: b) = splitOnChar sep a ++ splitOnChar sep b := by
  induction a with
  | nil =>
    rcases hb : splitOnChar sep b with _ | ⟨w, ws⟩
    · exact absurd hb (splitOnChar_ne_nil sep b)
    · simp [splitOnChar, hb]
  | cons c a ih =>
    rcases ha : splitOnChar sep a with _ | ⟨w, ws⟩
    · exact absurd ha (splitOnChar_ne_nil sep a)
    · rw [List.cons_append, splitOnChar, ih, ha]
      simp only [List.cons_append]
      rw [splitOnChar, ha]
      split_ifs <;> simp

/-- A text without separator put before a text lengthens its first line. -/
theorem splitOnChar_append_left (sep : Char) (p e l0 : List Char) (ls : List (List Char))
    (hp : sep ∉ p) (he : splitOnChar sep e = l0 :: ls) :
    splitOnChar sep (p ++ e) = (p ++ l0) :: ls := by
  induction p with
  | nil => simpa using he
  | cons c p ih =>
    have hc : c ≠ sep := fun h => hp (by simp [h])
    have hp' : sep ∉ p := fun h => hp (by simp [h])
    rw [List.cons_append, splitOnChar, ih hp']
    simp [hc]

/-- A message `<context><text>` and a newline, whose context begins with
`error: ` and has one line, and whose text is clean, has exactly one line
beginning with `error: `. -/
theorem errorLines_message (ctx e : String) (hctx : beginsWith "error: " ctx)
    (hnl : '\n' ∉ ctx.data) (he : cleanText e) :
    errorLines (ctx ++ e ++ "\n").data = 1 := by
  rcases hs : splitOnChar '\n' e.data with _ | ⟨l0, ls⟩
  · exact absurd hs (splitOnChar_ne_nil _ _)
  · have hdata : (ctx ++ e ++ "\n").data = (ctx.data ++ e.data) ++ '\n' :: [] := by
      simp only [String.data_append]
    have hfirst : decide ("error: ".data <+: ctx.data ++ l0) = true :=
      decide_eq_true (List.IsPrefix.trans hctx (List.prefix_append _ _))
    have hrest : List.countP (fun l => decide ("error: ".data <+: l)) ls = 0 := by
      rw [List.countP_eq_zero]
      intro l hl
      have := he l (by rw [hs]; exact hl)
      simpa using this
    unfold errorLines
    rw [hdata, splitOnChar_append_sep, splitOnChar_append_left _ _ _ _ _ hnl hs]
    rw [List.countP_append, List.countP_cons, hfirst, hrest]
    decide

set_option maxRecDepth 100000 in
/-- The usage text has no line beginning with `error: `. -/
theorem errorLines_usage :
    List.countP (fun l => decide ("error: ".data <+: l)) (splitOnChar '\n' usage.data) = 0 := by
  decide

/-- The usage text and a newline before a text add no line beginning with
`error: `. -/
theorem errorLines_after_usage (m : String) :
    errorLines (streamText [usage ++ "\n", m]) = errorLines m.data := by
  have hdata : streamText [usage ++ "\n", m] = usage.data ++ '\n' :: m.data := by
    simp only [streamText, String.data_append, List.append_nil]
    rw [List.append_assoc]
    rfl
  unfold errorLines
  rw [hdata, splitOnChar_append_sep, List.countP_append, errorLines_usage, Nat.zero_add]

/-- On every path where `run` returns 2 and the errors have clean texts, the
error stream has exactly one line beginning with `error: `. -/
theorem run_error_lines {R C L : Type} (env : Env R C L) (osArgs : List String)
    (r : R) (hcode : (run env osArgs r).code = 2) (hclean : CleanErrors env osArgs r) :
    errorLines (streamText (werrWrites (run env osArgs r).trace)) = 1 := by
  obtain ⟨hP, hD, hR, hC⟩ := hclean
  have hone_msg : ∀ m : String, streamText [m] = m.data := by
    intro m; simp [streamText]
  rcases path_exists env osArgs r with
    ⟨e, hparse⟩ | ⟨flags, hparse, hhelp⟩ | ⟨flags, hparse, hhelp, hcount⟩ |
    ⟨flags, e, hparse, hhelp, hone, hdiff⟩ |
    ⟨flags, content, e, hparse, hhelp, hone, hdiff, hreport⟩ |
    ⟨flags, content, linter, out, e, hparse, hhelp, hone, hdiff, hreport, hcmd⟩ |
    ⟨flags, content, linter, out, n, hparse, hhelp, hone, hdiff, hreport, hcmd⟩
  · rw [run_parse_error_eq env osArgs r e hparse]
    simp only [werrWrites]
    rw [errorLines_after_usage]
    exact errorLines_message "error: " _ (by decide) (by decide) (hP e hparse)
  · rw [run_help_eq env osArgs r flags hparse hhelp] at hcode
    exact absurd hcode (by decide)
  · rw [run_arg_count_eq env osArgs r flags hparse hhelp hcount]
    simp only [werrWrites]
    rw [errorLines_after_usage]
    exact errorLines_message "error: no report file provided" "" (by decide) (by decide)
      (by decide)
  · have hw := (run_error_writes env osArgs r hcode).2.2
    have hsrc := hdiff
    rw [readContent_snd] at hsrc
    rw [run_diff_error_eq env osArgs r flags e hparse hhelp hone hdiff] at hw ⊢
    have hmsg : werrWrites [(readContent env flags.diffFlag r).1,
        .werr ("error: could not read diff: " ++ e ++ "\n")]
        = ["error: could not read diff: " ++ e ++ "\n"] := by
      rcases readContent_fst_error env flags.diffFlag r e hdiff with h | h <;> rw [h] <;> rfl
    rw [hmsg, hone_msg]
    exact errorLines_message "error: could not read diff: " e (by decide) (by decide)
      (hD flags e hparse hsrc)
  · rw [run_report_error_eq env osArgs r flags content e hparse hhelp hone hdiff hreport]
    have hmsg : werrWrites [(readContent env flags.diffFlag r).1, .newTextReporter,
        .readPMDFile (flags.Arg 0) (some e),
        .werr ("error: could not read report: " ++ e ++ "\n")]
        = ["error: could not read report: " ++ e ++ "\n"] := by
      rcases readContent_fst_ok env flags.diffFlag r content hdiff with h | h <;> rw [h] <;> rfl
    rw [hmsg, hone_msg]
    exact errorLines_message "error: could not read report: " e (by decide) (by decide)
      (hR flags e hparse hreport)
  · rw [run_command_error_eq env osArgs r flags content linter out e hparse hhelp hone hdiff
      hreport hcmd]
    have hmsg : werrWrites ([(readContent env flags.diffFlag r).1, .newTextReporter,
        .readPMDFile (flags.Arg 0) none, .cmdRun (some e)] ++ out.map .reported
        ++ [.werr ("error: command failed: " ++ e ++ "\n")])
        = ["error: command failed: " ++ e ++ "\n"] := by
      rw [werrWrites_append, werrWrites_append, werrWrites_reported]
      rcases readContent_fst_ok env flags.diffFlag r content hdiff with h | h <;> rw [h] <;> rfl
    rw [hmsg, hone_msg]
    exact errorLines_message "error: command failed: " e (by decide) (by decide)
      (hC content linter out e hcmd)
  · rw [run_success_eq env osArgs r flags content linter out n hparse hhelp hone hdiff
      hreport hcmd] at hcode
    split_ifs at hcode <;> simp at hcode

/-- C7, as stated, fails at `review` with the one argument `-x\nerror: y`: the
text of the parse error holds a newline followed by `error: `, and `run`
prints it as it is, so that the error stream has two lines beginning with
`error: `. -/
theorem error_text_with_newline_two_error_lines :
    Parse ["-x\nerror: y"] = .error (.notDefined "x\nerror: y") ∧
    (run demoEnv ["-x\nerror: y"] "").code = 2 ∧
    werrWrites (run demoEnv ["-x\nerror: y"] "").trace
      = [usage ++ "\n", "error: flag provided but not defined: -x\nerror: y\n"] ∧
    errorLines (streamText (werrWrites (run demoEnv ["-x\nerror: y"] "").trace)) = 2 := by
  refine ⟨by decide, by decide, by rfl, ?_⟩
  rw [run_parse_error_eq demoEnv ["-x\nerror: y"] "" (.notDefined "x\nerror: y") (by decide)]
  simp only [werrWrites]
  rw [errorLines_after_usage]
  decide

/-- C7, amended: on every path where `run` returns 2, `run` makes exactly one
write beginning with `error: ` on the error stream, preceded by the usage text
only for argument errors (a parse error or a wrong number of positional
arguments); the write holds the text of the underlying error for parse,
diff, report and command failures; and `run` itself writes nothing on
standard output.  When no line of the text of the underlying error after its
first begins with `error: `, the error stream has exactly one line beginning
with `error: `. -/
theorem run_error_surfaced_once {R C L : Type} (env : Env R C L) (osArgs : List String)
    (r : R) (hcode : (run env osArgs r).code = 2) :
    woutWrites (run env osArgs r).trace = [] ∧
    (werrWrites (run env osArgs r).trace).countP
      (fun s => decide (beginsWith "error: " s)) = 1 ∧
    ((∃ e, Parse osArgs = .error e ∧
        werrWrites (run env osArgs r).trace
          = [usage ++ "\n", "error: " ++ e.Error env.quote ++ "\n"]) ∨
     (∃ flags, Parse osArgs = .ok flags ∧ flags.helpFlag = false ∧ flags.args.length ≠ 1 ∧
        werrWrites (run env osArgs r).trace
          = [usage ++ "\n", "error: no report file provided\n"]) ∨
     (∃ e, (Event.readDiff (some e) ∈ (run env osArgs r).trace ∨
            ∃ p, Event.readDiffFile p (some e) ∈ (run env osArgs r).trace) ∧
        werrWrites (run env osArgs r).trace
          = ["error: could not read diff: " ++ e ++ "\n"]) ∨
     (∃ p e, Event.readPMDFile p (some e) ∈ (run env osArgs r).trace ∧
        werrWrites (run env osArgs r).trace
          = ["error: could not read report: " ++ e ++ "\n"]) ∨
     (∃ e, Event.cmdRun (some e) ∈ (run env osArgs r).trace ∧
        werrWrites (run env osArgs r).trace
          = ["error: command failed: " ++ e ++ "\n"])) ∧
    (CleanErrors env osArgs r →
      errorLines (streamText (werrWrites (run env osArgs r).trace)) = 1) := by
  obtain ⟨h1, h2, h3⟩ := run_error_writes env osArgs r hcode
  exact ⟨h1, h2, h3, run_error_lines env osArgs r hcode⟩

/-- The errors of `review -d gone.diff pmd-report.json` in the demonstration
environment have clean texts. -/
theorem demoEnv_cleanErrors :
    CleanErrors demoEnv ["-d", "gone.diff", "pmd-report.json"] "" := by
  have hp : Parse ["-d", "gone.diff", "pmd-report.json"]
      = .ok ⟨"gone.diff", false, ["pmd-report.json"]⟩ := by decide
  refine ⟨fun e h => ?_, fun flags e h hd => ?_, fun flags e h hr => ?_,
    fun content linter out e h => ?_⟩
  · rw [hp] at h; cases h
  · rw [hp] at h; cases h
    have : diffSource demoEnv "gone.diff" ""
        = .error "open gone.diff: no such file or directory" := by decide
    rw [this] at hd; cases hd
    decide
  · rw [hp] at h; cases h
    have : demoEnv.readPMDFile "pmd-report.json"
        = .ok [⟨"src/Foo.java", 4, "UnusedLocal", "unused", "3"⟩,
               ⟨"src/Foo.java", 9, "EmptyCatch", "empty", "2"⟩] := by decide
    rw [show FlagSet.Arg ⟨"gone.diff", false, ["pmd-report.json"]⟩ 0 = "pmd-report.json" from rfl,
      this] at hr
    cases hr
  · simp only [demoEnv, specEnv] at h
    cases h

/-- C7, amended, at `review -d gone.diff pmd-report.json`, where the diff file
does not exist: `run` returns 2, and the one message on the error stream, on
one line, holds the text of the error. -/
theorem run_error_surfaced_once_witness :
    (run demoEnv ["-d", "gone.diff", "pmd-report.json"] "").code = 2 ∧
    woutWrites (run demoEnv ["-d", "gone.diff", "pmd-report.json"] "").trace = [] ∧
    (werrWrites (run demoEnv ["-d", "gone.diff", "pmd-report.json"] "").trace).countP
      (fun s => decide (beginsWith "error: " s)) = 1 ∧
    werrWrites (run demoEnv ["-d", "gone.diff", "pmd-report.json"] "").trace
      = ["error: could not read diff: open gone.diff: no such file or directory\n"] ∧
    errorLines (streamText
      (werrWrites (run demoEnv ["-d", "gone.diff", "pmd-report.json"] "").trace)) = 1 :=
  ⟨by decide,
   (run_error_surfaced_once demoEnv ["-d", "gone.diff", "pmd-report.json"] "" (by decide)).1,
   (run_error_surfaced_once demoEnv ["-d", "gone.diff", "pmd-report.json"] "" (by decide)).2.1,
   by decide,
   (run_error_surfaced_once demoEnv ["-d", "gone.diff", "pmd-report.json"] ""
      (by decide)).2.2.2 demoEnv_cleanErrors⟩

/-- C8: for every input whose diff cannot be read or parsed, `run` returns 2
with no violations printed: the first failure aborts the run, so the report
file is never read, the reporter and `command.run` are never invoked, nothing
is written on standard output, and the only output on the error stream is
`error: could not read diff: <err>` and a newline, whether or not the report
file is readable. -/
theorem run_diff_failure_aborts {R C L : Type} (env : Env R C L) (osArgs : List String)
    (r : R) (flags : FlagSet) (e : String)
    (hparse : Parse osArgs = .ok flags) (hhelp : flags.helpFlag = false)
    (hone : flags.args.length = 1)
    (hdiff : (readContent env flags.diffFlag r).2 = .error e) :
    (run env osArgs r).code = 2 ∧
    (∀ p err, Event.readPMDFile p err ∉ (run env osArgs r).trace) ∧
    Event.newTextReporter ∉ (run env osArgs r).trace ∧
    (∀ err, Event.cmdRun err ∉ (run env osArgs r).trace) ∧
    stdoutWrites (run env osArgs r).trace = [] ∧
    werrWrites (run env osArgs r).trace = ["error: could not read diff: " ++ e ++ "\n"] := by
  rw [run_diff_error_eq env osArgs r flags e hparse hhelp hone hdiff]
  rcases readContent_fst_error env flags.diffFlag r e hdiff with h | h <;> rw [h] <;>
    simp [stdoutWrites, werrWrites]

/-- C8 at `review missing.json` with the diff text `@@ bogus @@` on the
reader: `readDiff` fails on the malformed hunk header, and `run` returns 2
without reading the report, which does not exist either. -/
theorem run_diff_failure_aborts_witness :
    readDiff "@@ bogus @@" = .error "malformed hunk header: @@ bogus @@" ∧
    demoEnv.readPMDFile "missing.json"
      = .error "open missing.json: no such file or directory" ∧
    (run demoEnv ["missing.json"] "@@ bogus @@").code = 2 ∧
    stdoutWrites (run demoEnv ["missing.json"] "@@ bogus @@").trace = [] ∧
    werrWrites (run demoEnv ["missing.json"] "@@ bogus @@").trace
      = ["error: could not read diff: malformed hunk header: @@ bogus @@\n"] :=
  ⟨by decide, by decide,
   (run_diff_failure_aborts demoEnv ["missing.json"] "@@ bogus @@"
      ⟨"", false, ["missing.json"]⟩ "malformed hunk header: @@ bogus @@"
      (by decide) rfl rfl (by decide)).1,
   (run_diff_failure_aborts demoEnv ["missing.json"] "@@ bogus @@"
      ⟨"", false, ["missing.json"]⟩ "malformed hunk header: @@ bogus @@"
      (by decide) rfl rfl (by decide)).2.2.2.2.1,
   (run_diff_failure_aborts demoEnv ["missing.json"] "@@ bogus @@"
      ⟨"", false, ["missing.json"]⟩ "malformed hunk header: @@ bogus @@"
      (by decide) rfl rfl (by decide)).2.2.2.2.2⟩

/-! ## Theorems about the diff parser and the correlation -/

/-- Recording a line adds it to the set of its path and changes nothing else. -/
theorem mem_linesOf_record (p : String) (c : Nat) (m : DiffModel) (q : String) (n : Nat) :
    n ∈ linesOf (record p c m) q ↔ n ∈ linesOf m q ∨ (q = p ∧ n = c) := by
  induction m with
  | nil =>
    by_cases h : q = p
    · subst h; simp [record, linesOf, List.lookup]
    · have : (q == p) = false := by simpa using h
      simp [record, linesOf, List.lookup, this, h]
  | cons hd tl ih =>
    obtain ⟨k, ls⟩ := hd
    unfold record
    by_cases hk : k = p
    · subst hk
      rw [if_pos rfl]
      by_cases h : q = k
      · subst h; simp [linesOf, List.lookup]
      · have : (q == k) = false := by simpa using h
        simp [linesOf, List.lookup, this, h]
    · rw [if_neg hk]
      by_cases h : q = k
      · subst h
        have hne : ¬ q = p := hk
        simp [linesOf, List.lookup, hne]
      · have : (q == k) = false := by simpa using h
        have ih' := ih
        simp only [linesOf] at ih' ⊢
        simpa [List.lookup, this] using ih'

/-- An added line inside a hunk, under an active path: the counter is
recorded for the path, then incremented. -/
theorem scanLine_added (st : ScanState) (rest : List Char) (p : String)
    (hin : st.inHunk = true) (hp : st.path = some p)
    (hmark : ∀ t, rest ≠ '+' :: '+' :: t) :
    scanLine st (String.mk ('+' :: rest)) =
      .ok { st with counter := st.counter + 1, changed := record p st.counter st.changed } := by
  unfold scanLine
  match rest, hmark with
  | [], _ => simp [hin, hp]
  | [a], _ =>
    by_cases ha : a = '+'
    · subst ha; simp [hin, hp]
    · simp [hin, hp]
  | a :: b :: t, hmark =>
    by_cases ha : a = '+'
    · by_cases hb : b = '+'
      · exact absurd (by rw [ha, hb]) (hmark t)
      · subst ha; simp [hin, hp, hb]
    · simp [hin, hp, ha]

/-- An added line inside a hunk without active path (a deleted file): nothing
is recorded, the counter is incremented. -/
theorem scanLine_added_no_path (st : ScanState) (rest : List Char)
    (hin : st.inHunk = true) (hp : st.path = none)
    (hmark : ∀ t, rest ≠ '+' :: '+' :: t) :
    scanLine st (String.mk ('+' :: rest)) = .ok { st with counter := st.counter + 1 } := by
  unfold scanLine
  match rest, hmark with
  | [], _ => simp [hin, hp]
  | [a], _ =>
    by_cases ha : a = '+'
    · subst ha; simp [hin, hp]
    · simp [hin, hp]
  | a :: b :: t, hmark =>
    by_cases ha : a = '+'
    · by_cases hb : b = '+'
      · exact absurd (by rw [ha, hb]) (hmark t)
      · subst ha; simp [hin, hp, hb]
    · simp [hin, hp, ha]

/-- A removed line: nothing is recorded and the counter stays. -/
theorem scanLine_removed (st : ScanState) (rest : List Char)
    (hmark : ∀ t, rest ≠ '-' :: '-' :: t) :
    scanLine st (String.mk ('-' :: rest)) = .ok st := by
  unfold scanLine
  match rest, hmark with
  | [], _ => simp
  | [a], _ =>
    by_cases ha : a = '-'
    · subst ha; simp
    · simp
  | a :: b :: t, hmark =>
    by_cases ha : a = '-'
    · by_cases hb : b = '-'
      · exact absurd (by rw [ha, hb]) (hmark t)
      · subst ha; simp [hb]
    · simp [ha]

/-- A context line inside a hunk, with a prefix that is none of `+`, `-` and
`@` (a space, say): nothing is recorded, the counter is incremented. -/
theorem scanLine_context (st : ScanState) (c : Char) (rest : List Char)
    (hin : st.inHunk = true) (hplus : c ≠ '+') (hminus : c ≠ '-') (hat : c ≠ '@') :
    scanLine st (String.mk (c :: rest)) = .ok { st with counter := st.counter + 1 } := by
  unfold scanLine
  simp [hin, hplus, hminus, hat]

/-- An empty line inside a hunk is a context line. -/
theorem scanLine_empty (st : ScanState) (hin : st.inHunk = true) :
    scanLine st "" = .ok { st with counter := st.counter + 1 } := by
  unfold scanLine
  simp [hin]

/-- C9: for a file section with the single hunk `@@ -10,3 +10,4 @@` and the
body lines ` context1`, `-old`, `+new1`, `+new2`, ` context2`, the changed-line
set recorded for the path is exactly {11, 12} and the new-side counter after
the hunk is 14.  In general, inside a hunk, a `+` line (not `+++`) records the
current counter for the active path and then increments it, a `-` line (not
`---`) neither records nor increments, and a context line increments without
recording. -/
theorem hunk_line_counting (st : ScanState) (rest : List Char) (p : String)
    (hin : st.inHunk = true) (hp : st.path = some p) :
    scanLines ScanState.init
        ["--- a/src/Foo.java", "+++ b/src/Foo.java", "@@ -10,3 +10,4 @@",
         " context1", "-old", "+new1", "+new2", " context2"]
      = .ok ⟨some "src/Foo.java", 14, true, [("src/Foo.java", [11, 12])]⟩ ∧
    (∀ n, n ∈ linesOf [("src/Foo.java", [11, 12])] "src/Foo.java" ↔ n = 11 ∨ n = 12) ∧
    ((∀ t, rest ≠ '+' :: '+' :: t) →
      scanLine st (String.mk ('+' :: rest)) =
        .ok { st with counter := st.counter + 1,
                      changed := record p st.counter st.changed } ∧
      (∀ q n, n ∈ linesOf (record p st.counter st.changed) q
          ↔ n ∈ linesOf st.changed q ∨ (q = p ∧ n = st.counter))) ∧
    ((∀ t, rest ≠ '-' :: '-' :: t) → scanLine st (String.mk ('-' :: rest)) = .ok st) ∧
    scanLine st (String.mk (' ' :: rest)) = .ok { st with counter := st.counter + 1 } ∧
    scanLine st "" = .ok { st with counter := st.counter + 1 } := by
  refine ⟨by decide, ?_, fun h => ⟨scanLine_added st rest p hin hp h, ?_⟩,
    scanLine_removed st rest, scanLine_context st ' ' rest hin (by decide) (by decide)
      (by decide), scanLine_empty st hin⟩
  · intro n
    simp [linesOf, List.lookup]
  · intro q n
    exact mem_linesOf_record p st.counter st.changed q n

/-- C9 on the state after the hunk header `@@ -10,3 +10,4 @@` of
`src/Foo.java`: the added line `+new1` records line 10 and moves the counter
to 11, and the removed line `-old` changes nothing. -/
theorem hunk_line_counting_witness :
    scanLine ⟨some "src/Foo.java", 10, true, []⟩ "+new1"
      = .ok ⟨some "src/Foo.java", 11, true, [("src/Foo.java", [10])]⟩ ∧
    scanLine ⟨some "src/Foo.java", 10, true, []⟩ "-new1"
      = .ok ⟨some "src/Foo.java", 10, true, []⟩ :=
  ⟨((hunk_line_counting ⟨some "src/Foo.java", 10, true, []⟩ "new1".data "src/Foo.java"
      rfl rfl).2.2.1 (by intro t h; cases h)).1,
   (hunk_line_counting ⟨some "src/Foo.java", 10, true, []⟩ "new1".data "src/Foo.java"
      rfl rfl).2.2.2.1 (by intro t h; cases h)⟩

/-- C10: the violations `command.run` reports are exactly the sub-sequence, in
original order, of those whose normalized path is a key of the changed-line
map and whose line number is a member of that key's set; every reported
violation is rendered and counted once; so the returned count is 0 whenever
the changed-line map is empty, and it never exceeds the number of violations
in the report. -/
theorem commandRun_correlates (normalize : String → String) (render : Violation → String)
    (m : DiffModel) (vs : List Violation) :
    (commandRun normalize render m vs).2.1 = vs.filter (relevant normalize m) ∧
    List.Sublist (commandRun normalize render m vs).2.1 vs ∧
    (∀ v, v ∈ (commandRun normalize render m vs).2.1 ↔
        v ∈ vs ∧ ∃ ls, m.lookup (normalize v.path) = some ls ∧ v.line ∈ ls) ∧
    (commandRun normalize render m vs).1
      = ((commandRun normalize render m vs).2.1).map render ∧
    (commandRun normalize render m vs).2.2 = ((commandRun normalize render m vs).2.1).length ∧
    (commandRun normalize render [] vs).2.2 = 0 ∧
    ((specEnv normalize render (fun _ => .error "") (fun _ => .error "")).cmdRun [] vs
      = ([], .ok 0)) ∧
    (commandRun normalize render m vs).2.2 ≤ vs.length := by
  have hkept : ∀ (m : DiffModel) (vs : List Violation),
      (commandRun normalize render m vs).2.1 = vs.filter (relevant normalize m) := by
    intro m vs
    induction vs with
    | nil => rfl
    | cons v vs ih =>
      unfold commandRun
      by_cases hv : relevant normalize m v = true
      · simp [hv, ih]
      · simp [hv, ih]
  have hout : ∀ (m : DiffModel) (vs : List Violation),
      (commandRun normalize render m vs).1
        = ((commandRun normalize render m vs).2.1).map render := by
    intro m vs
    induction vs with
    | nil => rfl
    | cons v vs ih =>
      unfold commandRun
      by_cases hv : relevant normalize m v = true
      · simp [hv, ih]
      · simp [hv, ih]
  have hcount : ∀ (m : DiffModel) (vs : List Violation),
      (commandRun normalize render m vs).2.2
        = ((commandRun normalize render m vs).2.1).length := by
    intro m vs
    induction vs with
    | nil => rfl
    | cons v vs ih =>
      unfold commandRun
      by_cases hv : relevant normalize m v = true
      · simp [hv, ih]
      · simp [hv, ih]
  have hempty : ∀ vs : List Violation, (commandRun normalize render [] vs).2.1 = [] := by
    intro vs
    rw [hkept]
    simp [relevant, List.lookup]
  refine ⟨hkept m vs, ?_, ?_, hout m vs, hcount m vs, ?_, ?_, ?_⟩
  · rw [hkept]; exact List.filter_sublist vs
  · intro v
    rw [hkept, List.mem_filter]
    unfold relevant
    cases hl : m.lookup (normalize v.path) with
    | none => simp
    | some ls => simp
  · rw [hcount, hempty]; rfl
  · have h1 := hout [] vs
    have h2 := hcount [] vs
    rw [hempty] at h1 h2
    simp only [specEnv]
    rcases hc : commandRun normalize render [] vs with ⟨o, k, c⟩
    rw [hc] at h1 h2
    simp only [List.map_nil, List.length_nil] at h1 h2
    subst h1 h2
    rfl
  · rw [hcount, hkept]; exact List.length_filter_le _ _

/-! ## The trace records what the collaborators returned -/

/-- The error of a result is `some e` exactly when the result is the error `e`. -/
theorem errOf_eq_some {α : Type} (x : Except String α) (e : String) :
    errOf x = some e ↔ x = .error e := by
  cases x <;> simp [errOf]

/-- The two cases of the `switch diffFlag`. -/
theorem readContent_cases {R C L : Type} (env : Env R C L) (d : String) (r : R) :
    readContent env d r = (.readDiff (errOf (env.readDiff r)), env.readDiff r) ∨
    readContent env d r = (.readDiffFile d (errOf (env.readDiffFile d)), env.readDiffFile d) := by
  unfold readContent
  split_ifs
  · exact Or.inl rfl
  · exact Or.inr rfl

/-- The error logged with a call in the trace of `run` is the error the
collaborator returned on the arguments of that call. -/
theorem trace_errors_sound {R C L : Type} (env : Env R C L) (osArgs : List String) (r : R) :
    (∀ e, Event.readDiff (some e) ∈ (run env osArgs r).trace → env.readDiff r = .error e) ∧
    (∀ p e, Event.readDiffFile p (some e) ∈ (run env osArgs r).trace →
        env.readDiffFile p = .error e) ∧
    (∀ p e, Event.readPMDFile p (some e) ∈ (run env osArgs r).trace →
        env.readPMDFile p = .error e) ∧
    (∀ e, Event.cmdRun (some e) ∈ (run env osArgs r).trace →
        ∃ content linter out, env.cmdRun content linter = (out, .error e)) := by
  rcases path_exists env osArgs r with
    ⟨e, hparse⟩ | ⟨flags, hparse, hhelp⟩ | ⟨flags, hparse, hhelp, hcount⟩ |
    ⟨flags, e, hparse, hhelp, hone, hdiff⟩ |
    ⟨flags, content, e, hparse, hhelp, hone, hdiff, hreport⟩ |
    ⟨flags, content, linter, out, e, hparse, hhelp, hone, hdiff, hreport, hcmd⟩ |
    ⟨flags, content, linter, out, n, hparse, hhelp, hone, hdiff, hreport, hcmd⟩
  · rw [run_parse_error_eq env osArgs r e hparse]; simp
  · rw [run_help_eq env osArgs r flags hparse hhelp]; simp
  · rw [run_arg_count_eq env osArgs r flags hparse hhelp hcount]; simp
  · rw [run_diff_error_eq env osArgs r flags e hparse hhelp hone hdiff]
    rcases readContent_cases env flags.diffFlag r with hrc | hrc <;>
    · rw [hrc] at hdiff ⊢
      simp only at hdiff
      refine ⟨fun e1 h1 => ?_, fun p e1 h1 => ?_, fun p e1 h1 => ?_, fun e1 h1 => ?_⟩ <;>
        simp [hdiff, errOf] at h1
      · first
        | (subst h1; exact hdiff)
        | (obtain ⟨rfl, rfl⟩ := h1; exact hdiff)
  · rw [run_report_error_eq env osArgs r flags content e hparse hhelp hone hdiff hreport]
    rcases readContent_fst_ok env flags.diffFlag r content hdiff with h | h <;>
    · rw [h]
      refine ⟨fun e1 h1 => ?_, fun p e1 h1 => ?_, fun p e1 h1 => ?_, fun e1 h1 => ?_⟩ <;>
        simp at h1
      obtain ⟨rfl, rfl⟩ := h1
      exact hreport
  · rw [run_command_error_eq env osArgs r flags content linter out e hparse hhelp hone hdiff
      hreport hcmd]
    rcases readContent_fst_ok env flags.diffFlag r content hdiff with h | h <;>
    · rw [h]
      refine ⟨fun e1 h1 => ?_, fun p e1 h1 => ?_, fun p e1 h1 => ?_, fun e1 h1 => ?_⟩ <;>
        simp at h1
      subst h1
      exact ⟨content, linter, out, hcmd⟩
  · rw [run_success_eq env osArgs r flags content linter out n hparse hhelp hone hdiff
      hreport hcmd]
    rcases readContent_fst_ok env flags.diffFlag r content hdiff with h | h <;> rw [h] <;>
      split_ifs <;> simp

/-! ## More command lines on which `-h` appears -/

/-- The help flag does not short-circuit a diff option that lacks its value,
is not recognised after a positional argument, and is taken as the value of a
preceding `-d`. -/
theorem help_flag_examples :
    (run demoEnv ["-h", "-d"] "").code = 2 ∧
    Parse ["pmd-report.json", "-h"] = .ok ⟨"", false, ["pmd-report.json", "-h"]⟩ ∧
    (run demoEnv ["pmd-report.json", "-h"] "").code = 2 ∧
    Parse ["-d", "-h", "pmd-report.json"] = .ok ⟨"-h", false, ["pmd-report.json"]⟩ ∧
    (run demoEnv ["-d", "-h", "pmd-report.json"] "").code = 2 ∧
    Parse ["-h=false", "pmd-report.json"] = .ok ⟨"", false, ["pmd-report.json"]⟩ ∧
    (run demoEnv ["-h=false", "pmd-report.json"] "").code = 0 := by
  refine ⟨by decide, by decide, by decide, by decide, by decide, by decide, by decide⟩

end Review
